import Mathlib

/-!
Shallow embedding of the verte compiler front end and code emitter
(repository EOF-D/verte), translated from:

  * src/include/verte/frontend/lexer/defs.h      (token tables)
  * src/include/verte/frontend/lexer/token.hpp   (token model, operator sets, precedence)
  * src/src/frontend/lexer/lexer.cpp             (lexer)
  * src/src/frontend/parser/parser.cpp           (parser)
  * src/include/verte/frontend/parser/parser.hpp (getPrecedence, token accessors)
  * src/include/verte/types.hpp                  (TypeInfo, Parameter, Function)
  * src/include/verte/frontend/parser/ast.hpp    (AST node variants)
  * src/src/backend/codegen/codegen.cpp          (code emitter)

Machine characters are Lean `Char`; C `int` values are `Int` with explicit
wrap-around where LLVM APInt truncates.  Loops that the C++ writes as
`while` are embedded as fuel-indexed structural recursion; the distinguished
result `spin` marks fuel exhaustion (it models divergence and is proved
unreachable where the C++ loop terminates).  Exceptions (LexicalError,
ParserError, CodegenError) are explicit error results.
-/

namespace Verte

/-! ## Token model (defs.h, token.hpp) -/

/-- Token kinds, from the X-macro tables in defs.h (SYMBOLS, OPERATORS,
KEYWORDS, TYPES).  `ASSIGN` is the lexeme `=`, `EQUAL` is the lexeme `==`. -/
inductive TokType where
  | LPAREN | RPAREN | LBRACE | RBRACE | LBRACKET | RBRACKET
  | COMMA | DOT | COLON | SEMICOLON
  | ASSIGN | BANG | MINUS | PLUS | STAR | SLASH | MOD
  | LESS | GREATER | LT_EQUAL | GT_EQUAL | EQUAL | NEQ_EQUAL
  | IF | THEN | ELSE | OR | AND | TRUE | FALSE | CONST | FOR | WHILE | FN | RETURN
  | IDENTIFIER | STRING | NUMBER | INVALID | EOS
  deriving DecidableEq, Repr

/-- A token: lexeme value, kind, and (line, column) meta. -/
structure Tok where
  value : String
  type : TokType
  line : Nat
  col : Nat
  deriving DecidableEq, Repr

/-- A token's (line, column) pair. -/
def Tok.pos (t : Tok) : Nat × Nat := (t.line, t.col)

/-- The SYMBOLS table of defs.h. -/
def SYMBOLS : List (String × TokType) :=
  [("(", .LPAREN), (")", .RPAREN), ("\x7b", .LBRACE), ("\x7d", .RBRACE),
   ("[", .LBRACKET), ("]", .RBRACKET), (",", .COMMA), (".", .DOT),
   (":", .COLON), (";", .SEMICOLON)]

/-- The OPERATORS table of defs.h. -/
def OPERATORS : List (String × TokType) :=
  [("=", .ASSIGN), ("!", .BANG), ("-", .MINUS), ("+", .PLUS), ("*", .STAR),
   ("/", .SLASH), ("%", .MOD), ("<", .LESS), (">", .GREATER),
   ("<=", .LT_EQUAL), (">=", .GT_EQUAL), ("==", .EQUAL), ("!=", .NEQ_EQUAL)]

/-- The KEYWORDS table of defs.h. -/
def KEYWORDS : List (String × TokType) :=
  [("if", .IF), ("then", .THEN), ("else", .ELSE), ("or", .OR), ("and", .AND),
   ("true", .TRUE), ("false", .FALSE), ("const", .CONST), ("for", .FOR),
   ("while", .WHILE), ("fn", .FN), ("return", .RETURN)]

/-- The TYPES table of defs.h.  The EOS entry's C string literal "\0"
constructs the empty std::string. -/
def TYPE_TOKENS : List (String × TokType) :=
  [("IDENTIFIER", .IDENTIFIER), ("STRING", .STRING), ("NUMBER", .NUMBER),
   ("INVALID", .INVALID), ("", .EOS)]

/-- tokens::RESERVED: lexeme-to-kind map built from the full TOKENS table. -/
def RESERVED : List (String × TokType) :=
  SYMBOLS ++ OPERATORS ++ KEYWORDS ++ TYPE_TOKENS

/-- tokens::ATOMIC: lexeme-to-kind map built from SYMBOLS and OPERATORS. -/
def ATOMIC : List (String × TokType) := SYMBOLS ++ OPERATORS

/-- tokens::BINARY_OPERATOR_TYPES from token.hpp (note: includes AND). -/
def BINARY_OPERATOR_TYPES : List TokType :=
  [.PLUS, .MINUS, .STAR, .SLASH, .EQUAL, .NEQ_EQUAL,
   .LESS, .GREATER, .LT_EQUAL, .GT_EQUAL, .OR, .AND]

/-- tokens::UNARY_OPERATOR_TYPES from token.hpp. -/
def UNARY_OPERATOR_TYPES : List TokType := [.PLUS, .MINUS, .BANG]

/-- tokens::PRECEDENCE from token.hpp (note: no entry for AND). -/
def PRECEDENCE : List (TokType × Int) :=
  [(.OR, 1), (.EQUAL, 2), (.NEQ_EQUAL, 2), (.LESS, 3), (.GREATER, 3),
   (.LT_EQUAL, 3), (.GT_EQUAL, 3), (.PLUS, 4), (.MINUS, 4), (.STAR, 5),
   (.SLASH, 5), (.BANG, 6)]

/-- getPrecedence from parser.hpp: table lookup, -1 when absent. -/
def getPrecedence (t : TokType) : Int :=
  match PRECEDENCE.lookup t with
  | some p => p
  | none => -1

/-! ## Lexer (lexer.cpp) -/

/-- The NUL character, what the C++ lexer yields past end of input. -/
def nul : Char := '\x00'

/-- C locale isspace: space, \t, \n, \v, \f, \r (used via std::isspace). -/
def cIsSpace (c : Char) : Bool :=
  c == ' ' || c == '\t' || c == '\n' || c == '\x0b' || c == '\x0c' || c == '\r'

/-- Lexer cursor state: byte index plus 1-based line and column. -/
structure LexSt where
  index : Nat
  line : Nat
  column : Nat
  deriving DecidableEq, Repr

/-- Lexical error: the message together with the cursor state (line, column
reported by LexicalError; index records where the cursor stood). -/
structure LexErr where
  line : Nat
  column : Nat
  index : Nat
  msg : String
  deriving DecidableEq, Repr

/-- Lexer outcome: success, LexicalError, or fuel exhaustion (`spin` models
a C++ loop that would not terminate; proved unreachable below). -/
inductive LexRes (α : Type) where
  | ok : α → LexRes α
  | err : LexErr → LexRes α
  | spin : LexRes α
  deriving DecidableEq, Repr

/-- Lexer::atEof: index >= source.size(). -/
def atEof (src : List Char) (st : LexSt) : Bool := src.length ≤ st.index

/-- Lexer::currentChar: '\0' at EOF, else source[index]. -/
def currentChar (src : List Char) (st : LexSt) : Char :=
  if atEof src st then nul else src.getD st.index nul

/-- Lexer::peekChar: '\0' when index+offset is past the end, else the char. -/
def peekChar (src : List Char) (st : LexSt) (offset : Nat := 1) : Char :=
  if src.length ≤ st.index + offset then nul else src.getD (st.index + offset) nul

/-- The cursor after Lexer::nextChar: no move at EOF; else advance one char,
bumping the line (and resetting the column) on '\n'.  The character the C++
call returns is `currentChar` of the pre-state. -/
def advance (src : List Char) (st : LexSt) : LexSt :=
  if atEof src st then st
  else if currentChar src st = '\n' then ⟨st.index + 1, st.line + 1, 1⟩
  else ⟨st.index + 1, st.line, st.column + 1⟩

/-- Lexer::skipWs: consume characters while std::isspace holds. -/
def skipWsF (src : List Char) : Nat → LexSt → LexRes LexSt
  | 0, _ => .spin
  | fuel + 1, st =>
    if cIsSpace (currentChar src st) then skipWsF src fuel (advance src st)
    else .ok st

/-- Lexer::walk: consume characters while the predicate holds, collecting
them.  (Lexer::skip and Lexer::skipComments are dead code: nextToken calls
skipWs directly and nothing calls skip, so they are not embedded.) -/
def walkF (src : List Char) (p : Char → Bool) : Nat → LexSt → LexRes (List Char × LexSt)
  | 0, _ => .spin
  | fuel + 1, st =>
    if p (currentChar src st) then
      match walkF src p fuel (advance src st) with
      | .ok (cs, st') => .ok (currentChar src st :: cs, st')
      | .err e => .err e
      | .spin => .spin
    else .ok ([], st)

/-- The loop of Lexer::parseString: while current is not '"' and not EOF,
append characters, decoding escapes; an unknown escape raises
"Invalid escape sequence". -/
def parseStringBodyF (src : List Char) : Nat → LexSt → List Char → LexRes (List Char × LexSt)
  | 0, _, _ => .spin
  | fuel + 1, st, acc =>
    if currentChar src st != '"' && !(atEof src st) then
      if currentChar src st = '\\' then
        -- nextChar() skips the backslash; switch (nextChar()) reads the escape.
        let st1 := advance src st
        let c := currentChar src st1
        let st2 := advance src st1
        match c with
        | 'n' => parseStringBodyF src fuel st2 (acc ++ ['\n'])
        | 'r' => parseStringBodyF src fuel st2 (acc ++ ['\r'])
        | 't' => parseStringBodyF src fuel st2 (acc ++ ['\t'])
        | '\\' => parseStringBodyF src fuel st2 (acc ++ ['\\'])
        | '"' => parseStringBodyF src fuel st2 (acc ++ ['"'])
        | _ => .err ⟨st2.line, st2.column, st2.index, "Invalid escape sequence"⟩
      else
        parseStringBodyF src fuel (advance src st) (acc ++ [currentChar src st])
    else .ok (acc, st)

/-- Lexer::parseString: consume the opening quote, run the body loop, then
require the closing quote (else "Unterminated string."). -/
def parseStringTok (src : List Char) (st : LexSt) : LexRes (Tok × LexSt) :=
  let st0 := advance src st
  match parseStringBodyF src (src.length + 1) st0 [] with
  | .ok (value, st1) =>
    if atEof src st1 then .err ⟨st1.line, st1.column, st1.index, "Unterminated string."⟩
    else
      let st2 := advance src st1  -- skip the closing quote
      .ok (⟨String.mk value, .STRING, st2.line, st2.column⟩, st2)
  | .err e => .err e
  | .spin => .spin

/-- Lexer::parseNumber: digits, then optionally '.' followed by digits. -/
def parseNumberTok (src : List Char) (st : LexSt) : LexRes (Tok × LexSt) :=
  match walkF src Char.isDigit (src.length + 1) st with
  | .ok (cs, st1) =>
    if currentChar src st1 = '.' && (peekChar src st1 1).isDigit then
      let c := currentChar src st1
      let st2 := advance src st1
      match walkF src Char.isDigit (src.length + 1) st2 with
      | .ok (cs2, st3) =>
        .ok (⟨String.mk (cs ++ c :: cs2), .NUMBER, st3.line, st3.column⟩, st3)
      | .err e => .err e
      | .spin => .spin
    else .ok (⟨String.mk cs, .NUMBER, st1.line, st1.column⟩, st1)
  | .err e => .err e
  | .spin => .spin

/-- Lexer::parseIdentifier: alnum/underscore run, then keyword lookup in
tokens::RESERVED. -/
def parseIdentifierTok (src : List Char) (st : LexSt) : LexRes (Tok × LexSt) :=
  match walkF src (fun c => c.isAlphanum || c == '_') (src.length + 1) st with
  | .ok (cs, st1) =>
    let value := String.mk cs
    match RESERVED.lookup value with
    | some t => .ok (⟨value, t, st1.line, st1.column⟩, st1)
    | none => .ok (⟨value, .IDENTIFIER, st1.line, st1.column⟩, st1)
  | .err e => .err e
  | .spin => .spin

/-- Lexer::parseSymbol: try the two-character form when the next char is '=',
then look the lexeme up in tokens::ATOMIC; unmatched lexemes are INVALID. -/
def parseSymbolTok (src : List Char) (st : LexSt) : LexRes (Tok × LexSt) :=
  let c := currentChar src st
  if peekChar src st 1 = '=' then
    let st1 := advance src st  -- nextChar(); value += currentChar()
    let value := String.mk [c, currentChar src st1]
    let st2 := advance src st1
    match ATOMIC.lookup value with
    | some t => .ok (⟨value, t, st2.line, st2.column⟩, st2)
    | none => .ok (⟨value, .INVALID, st2.line, st2.column⟩, st2)
  else
    let value := String.mk [c]
    let st1 := advance src st
    match ATOMIC.lookup value with
    | some t => .ok (⟨value, t, st1.line, st1.column⟩, st1)
    | none => .ok (⟨value, .INVALID, st1.line, st1.column⟩, st1)

/-- Lexer::nextToken: skip whitespace (only — comments are never skipped),
then dispatch on the first character.  The EOS token's value is the empty
string (the C string literal "\0"). -/
def nextTokenF (src : List Char) (st : LexSt) : LexRes (Tok × LexSt) :=
  match skipWsF src (src.length + 1) st with
  | .ok st0 =>
    let c := currentChar src st0
    if c = nul then .ok (⟨"", .EOS, st0.line, st0.column⟩, st0)
    else if c.isDigit then parseNumberTok src st0
    else if c.isAlpha || c == '_' then parseIdentifierTok src st0
    else if c = '"' then parseStringTok src st0
    else parseSymbolTok src st0
  | .err e => .err e
  | .spin => .spin

/-- The loop of Lexer::allTokens: collect tokens until EOS, then push the
padding Token("END", EOS) at the current position. -/
def allTokensAuxF (src : List Char) : Nat → LexSt → LexRes (List Tok)
  | 0, _ => .spin
  | fuel + 1, st =>
    match nextTokenF src st with
    | .ok (tok, st') =>
      if tok.type = .EOS then .ok [⟨"END", .EOS, st'.line, st'.column⟩]
      else
        match allTokensAuxF src fuel st' with
        | .ok l => .ok (tok :: l)
        | .err e => .err e
        | .spin => .spin
    | .err e => .err e
    | .spin => .spin

/-- Lexer::allTokens, starting from index 0, line 1, column 1. -/
def allTokens (src : List Char) : LexRes (List Tok) :=
  allTokensAuxF src (src.length + 1) ⟨0, 1, 1⟩

/-! ## Type information and AST (types.hpp, ast.hpp) -/

/-- TypeInfo::DataType. -/
inductive DataType where
  | INTEGER | FLOAT | DOUBLE | STRING | BOOL | VOID | UNKNOWN
  deriving DecidableEq, Repr

/-- TypeInfo: the data-type tag plus a display name. -/
structure TypeInfo where
  dataType : DataType
  name : String
  deriving DecidableEq, Repr

/-- TypeInfo::toEnum: map a type identifier to a DataType. -/
def TypeInfo.toEnum (type : String) : DataType :=
  if type = "int" then .INTEGER
  else if type = "float" then .FLOAT
  else if type = "double" then .DOUBLE
  else if type = "string" then .STRING
  else if type = "bool" then .BOOL
  else if type = "void" then .VOID
  else .UNKNOWN

/-- TypeInfo::toString: the canonical display name of a DataType. -/
def dataTypeName : DataType → String
  | .INTEGER => "int"
  | .FLOAT => "float"
  | .DOUBLE => "double"
  | .STRING => "string"
  | .BOOL => "bool"
  | .VOID => "void"
  | .UNKNOWN => "unknown"

/-- The TypeInfo(DataType) constructor: display name from toString. -/
def mkTI (dt : DataType) : TypeInfo := ⟨dt, dataTypeName dt⟩

/-- Parameter: function parameter name and type. -/
structure Parameter where
  name : String
  type : TypeInfo
  deriving DecidableEq, Repr

/-- The AST node variants of ast.hpp as one sum type.  `varRef` embeds
VariableNode (`variable` is a Lean keyword) and `retStmt` embeds ReturnNode.
The typed sub-pointers of the C++ nodes are kept structural: CallNode's
callee is a VariableNode, represented by its name; FuncDeclNode's ProtoPtr
and BlockPtr are represented by the proto fields and the block's body.
IfNode/IfElseNode are omitted: the parser has no production for them and the
ASTVisitor interface (base.hpp) has no hooks for them, so no embedded code
path can reach one. -/
inductive Node where
  | program (body : List Node)
  | literal (value : String) (type : TypeInfo)
  | varDecl (name : String) (type : TypeInfo) (value : Node) (isConst : Bool)
  | assign (name : String) (value : Node)
  | varRef (name : String)
  | binary (lhs rhs : Node) (op : String)
  | unary (operand : Node) (op : String)
  | proto (name : String) (params : List Parameter) (returnType : TypeInfo)
  | block (body : List Node)
  | funcDecl (protoName : String) (params : List Parameter) (returnType : TypeInfo)
      (body : List Node)
  | call (callee : String) (args : List Node)
  | retStmt (value : Node)
  deriving Repr

/-! ## Parser (parser.cpp, parser.hpp) -/

/-- ParserError: position (from the current token) and message. -/
structure PErr where
  line : Nat
  col : Nat
  msg : String
  deriving DecidableEq, Repr

/-- Parser outcome: a value plus the cursor index after it, a ParserError,
or fuel exhaustion. -/
inductive PRes (α : Type) where
  | ok : α → Nat → PRes α
  | err : PErr → PRes α
  | spin : PRes α
  deriving DecidableEq, Repr

/-- Sequencing of parser steps (exceptions and spin propagate). -/
def PRes.bind {α β : Type} : PRes α → (α → Nat → PRes β) → PRes β
  | .ok a i, f => f a i
  | .err e, _ => .err e
  | .spin, _ => .spin

/-- Stand-in for tokens.back() on an empty vector, which is undefined
behaviour in C++; every claim below assumes a non-empty token vector. -/
def deadTok : Tok := ⟨"", .EOS, 0, 0⟩

/-- tokens.back(). -/
def backTok (tokens : List Tok) : Tok := tokens.getLastD deadTok

/-- Parser::currentToken: the token at the cursor, or tokens.back() when the
cursor is at or past the end. -/
def currentToken (tokens : List Tok) (index : Nat) : Tok :=
  if tokens.length ≤ index then backTok tokens else tokens.getD index deadTok

/-- Parser::nextToken: advance the cursor and read; on EOS clamp the cursor
to the vector size and return tokens.back(). -/
def nextTokenP (tokens : List Tok) (index : Nat) : Tok × Nat :=
  let i1 := index + 1
  let t := currentToken tokens i1
  if t.type = .EOS then (backTok tokens, tokens.length) else (t, i1)

/-- Parser::peekToken: the token at cursor+offset, or tokens.back() when
that is past the end. -/
def peekTokenP (tokens : List Tok) (index : Nat) (offset : Nat := 1) : Tok :=
  if tokens.length ≤ index + offset then backTok tokens
  else tokens.getD (index + offset) deadTok

/-- Parser::match: consume the current token when it has the given kind. -/
def matchT (tokens : List Tok) (index : Nat) (t : TokType) : Bool × Nat :=
  if (currentToken tokens index).type = t then (true, index + 1) else (false, index)

/-- Parser::error: a ParserError at the current token's position. -/
def perr (tokens : List Tok) (index : Nat) (msg : String) : PErr :=
  let t := currentToken tokens index
  ⟨t.line, t.col, msg⟩

/-- Parser::parseType: a single type identifier, converted with
TypeInfo::toEnum (the display name is the raw identifier). -/
def parseTypeP (tokens : List Tok) (index : Nat) : PRes TypeInfo :=
  let token := currentToken tokens index
  let (m, i1) := matchT tokens index .IDENTIFIER
  if !m then .err (perr tokens i1 "Expected a type identifier.")
  else .ok ⟨TypeInfo.toEnum token.value, token.value⟩ i1

/-- Parser::parseParam: IDENTIFIER ':' TYPE. -/
def parseParamP (tokens : List Tok) (index : Nat) : PRes Parameter :=
  let ident := currentToken tokens index
  let (m1, i1) := matchT tokens index .IDENTIFIER
  if !m1 then .err (perr tokens i1 "Expected an identifier for the parameter name.")
  else
    let (m2, i2) := matchT tokens i1 .COLON
    if !m2 then .err (perr tokens i2 "Expected a `:` after the parameter name.")
    else (parseTypeP tokens i2).bind fun type i3 => .ok ⟨ident.value, type⟩ i3

/-- The do-while loop of Parser::parseParams. -/
def parseParamsLoopF (tokens : List Tok) : Nat → List Parameter → Nat → PRes (List Parameter)
  | 0, _, _ => .spin
  | fuel + 1, acc, index =>
    (parseParamP tokens index).bind fun param i1 =>
    if (currentToken tokens i1).type = .RPAREN then .ok (acc ++ [param]) i1
    else
      let (m, i2) := matchT tokens i1 .COMMA
      if !m then .err (perr tokens i2 "Expected a `,` or `)` after the parameter.")
      else parseParamsLoopF tokens fuel (acc ++ [param]) i2

/-- Parser::parseParams: optional parameter list, then the closing ')'. -/
def parseParamsF (tokens : List Tok) (fuel : Nat) (index : Nat) : PRes (List Parameter) :=
  (if (currentToken tokens index).type = .RPAREN then .ok [] index
   else parseParamsLoopF tokens fuel [] index).bind fun params i1 =>
  let (m, i2) := matchT tokens i1 .RPAREN
  if !m then .err (perr tokens i2 "Expected a `)` after the parameter list.")
  else .ok params i2

/-- Parser::parseProto: name, parameter list, the `->` check, return type.
Note the arrow check errors only when the current token is not `-` AND the
peeked token is not `>`; it then skips two tokens unconditionally. -/
def parseProtoF (tokens : List Tok) (fuel : Nat) (index : Nat) :
    PRes (String × List Parameter × TypeInfo) :=
  let ident := currentToken tokens index
  let (m1, i1) := matchT tokens index .IDENTIFIER
  if !m1 then .err (perr tokens i1 "Expected an identifier for the function name.")
  else
    let (m2, i2) := matchT tokens i1 .LPAREN
    if !m2 then .err (perr tokens i2 "Expected a `(` after the function name.")
    else
      (parseParamsF tokens fuel i2).bind fun params i3 =>
      if !((currentToken tokens i3).type == .MINUS)
          && !((peekTokenP tokens i3 1).type == .GREATER) then
        .err (perr tokens i3 "Expected a `-> return type` after the parameters.")
      else
        -- index += 2; `skip the -> token`
        (parseTypeP tokens (i3 + 2)).bind fun ty i5 => .ok (ident.value, params, ty) i5

/-- The mutually recursive statement/expression procedures of Parser, one
field per C++ member function (plus one field per C++ while-loop).  The
recursion is tied fuel level by fuel level in `parserRun`, so that one more
unit of fuel allows one more level of nesting; this keeps every definition
structurally recursive. -/
structure ParserFns where
  stmt : Nat → PRes Node
  varDeclS : Nat → PRes Node
  assignS : Nat → PRes Node
  funcDeclS : Nat → PRes Node
  returnS : Nat → PRes Node
  exprStmtS : Nat → PRes Node
  blockS : Nat → PRes (List Node)
  blockLoop : List Node → Nat → PRes (List Node)
  expr : Nat → PRes Node
  binaryS : Int → Nat → PRes Node
  binLoop : Node → Int → Nat → PRes Node
  unaryS : Nat → PRes Node
  primaryS : Nat → PRes Node
  callS : String → Nat → PRes Node
  argsLoop : List Node → Nat → PRes (List Node)
  programLoop : List Node → Nat → PRes (List Node)

/-- Out of fuel: every procedure spins. -/
def parserSpin : ParserFns where
  stmt := fun _ => .spin
  varDeclS := fun _ => .spin
  assignS := fun _ => .spin
  funcDeclS := fun _ => .spin
  returnS := fun _ => .spin
  exprStmtS := fun _ => .spin
  blockS := fun _ => .spin
  blockLoop := fun _ _ => .spin
  expr := fun _ => .spin
  binaryS := fun _ _ => .spin
  binLoop := fun _ _ _ => .spin
  unaryS := fun _ => .spin
  primaryS := fun _ => .spin
  callS := fun _ _ => .spin
  argsLoop := fun _ _ => .spin
  programLoop := fun _ _ => .spin

/-- One fuel level of the parser: each body is the direct translation of the
corresponding member function of parser.cpp, with nested calls going through
`prev` (the next-lower fuel level). -/
def parserStep (tokens : List Tok) (prev : ParserFns) : ParserFns where
  -- Parser::parseStmt: statement dispatch on the current and peeked token.
  stmt := fun index =>
    let token := currentToken tokens index
    let next := peekTokenP tokens index 1
    if (token.type == .IDENTIFIER || token.type == .CONST)
        && (next.type == .IDENTIFIER || next.type == .COLON) then
      prev.varDeclS index
    else if token.type == .IDENTIFIER && next.type == .EQUAL then
      prev.assignS index
    else if token.type == .LBRACE then
      (prev.blockS index).bind fun body i1 => .ok (.block body) i1
    else if token.type == .FN then
      prev.funcDeclS index
    else if token.type == .RETURN then
      prev.returnS index
    else
      prev.exprStmtS index
  -- Parser::parseVarDecl: (CONST)? IDENT ':' TYPE '=' EXPR ';'.  The `=` is
  -- matched as Token::Type::ASSIGN.
  varDeclS := fun index =>
    let (isConst, i1) := matchT tokens index .CONST
    let ident := currentToken tokens i1
    let (m2, i2) := matchT tokens i1 .IDENTIFIER
    if !m2 then .err (perr tokens i2 "Expected an identifier for variable declaration.")
    else
      let (m3, i3) := matchT tokens i2 .COLON
      if !m3 then .err (perr tokens i3 "Expected a `:` after the identifier.")
      else
        (parseTypeP tokens i3).bind fun type i4 =>
        let (m5, i5) := matchT tokens i4 .ASSIGN
        if !m5 then .err (perr tokens i5 "Expected an `=` after the type.")
        else
          (prev.expr i5).bind fun expr i6 =>
          let (m7, i7) := matchT tokens i6 .SEMICOLON
          if !m7 then .err (perr tokens i7 "Expected a `;` after the expression.")
          else .ok (.varDecl ident.value type expr isConst) i7
  -- Parser::parseAssign: IDENT then `=` — matched as Token::Type::EQUAL, the
  -- kind of the lexeme `==`, not ASSIGN — then EXPR ';'.
  assignS := fun index =>
    let ident := currentToken tokens index
    let (m1, i1) := matchT tokens index .IDENTIFIER
    if !m1 then .err (perr tokens i1 "Expected an identifier for variable assignment.")
    else
      let (m2, i2) := matchT tokens i1 .EQUAL
      if !m2 then .err (perr tokens i2 "Expected an `=` after the identifier.")
      else
        (prev.expr i2).bind fun expr i3 =>
        let (m4, i4) := matchT tokens i3 .SEMICOLON
        if !m4 then .err (perr tokens i4 "Expected a `;` after the expression.")
        else .ok (.assign ident.value expr) i4
  -- Parser::parseFuncDecl: FN PROTO then ';' (bare prototype) or a block.
  funcDeclS := fun index =>
    let (m1, i1) := matchT tokens index .FN
    if !m1 then .err (perr tokens i1 "Expected a `fn` for the function declaration.")
    else
      (parseProtoF tokens (tokens.length + 1) i1).bind fun pr i2 =>
      let (mS, i3) := matchT tokens i2 .SEMICOLON
      if mS then .ok (.proto pr.1 pr.2.1 pr.2.2) i3
      else if (currentToken tokens i3).type = .LBRACE then
        (prev.blockS i3).bind fun body i4 =>
        .ok (.funcDecl pr.1 pr.2.1 pr.2.2 body) i4
      else .err (perr tokens i3 "Expected a `;` or `\x7b` after the function prototype.")
  -- Parser::parseReturn: RETURN EXPR ';'.
  returnS := fun index =>
    let (m1, i1) := matchT tokens index .RETURN
    if !m1 then .err (perr tokens i1 "Expected a `return` for the return statement.")
    else
      (prev.expr i1).bind fun expr i2 =>
      let (m3, i3) := matchT tokens i2 .SEMICOLON
      if !m3 then .err (perr tokens i3 "Expected a `;` after the expression.")
      else .ok (.retStmt expr) i3
  -- Parser::parseExprStmt: EXPR ';'.
  exprStmtS := fun index =>
    (prev.expr index).bind fun expr i1 =>
    let (m2, i2) := matchT tokens i1 .SEMICOLON
    if !m2 then .err (perr tokens i2 "Expected a `;` after the expression.")
    else .ok expr i2
  -- Parser::parseBlock: LBRACE, then the statement loop (the block's body).
  blockS := fun index =>
    let (m1, i1) := matchT tokens index .LBRACE
    if !m1 then .err (perr tokens i1 "Expected a `\x7b` to start a block.")
    else prev.blockLoop [] i1
  -- The loop of Parser::parseBlock: while !match(RBRACE) parse statements.
  blockLoop := fun acc index =>
    let (mR, i1) := matchT tokens index .RBRACE
    if mR then .ok acc i1
    else
      (prev.stmt index).bind fun stmtN i2 =>
      prev.blockLoop (acc ++ [stmtN]) i2
  -- Parser::parseExpr: EXPR -> BINARY with minimum precedence 0.
  expr := fun index => prev.binaryS 0 index
  -- Parser::parseBinary: parse a unary LHS, then the precedence-climb loop.
  binaryS := fun min index =>
    (prev.unaryS index).bind fun lhs i1 =>
    prev.binLoop lhs min i1
  -- The while loop of Parser::parseBinary: while the current precedence is
  -- at least `min` and the token is a binary operator, consume it, parse the
  -- RHS at precedence+1, and fold to the left.
  binLoop := fun lhs min index =>
    let currentPrec := getPrecedence (currentToken tokens index).type
    if min ≤ currentPrec then
      if BINARY_OPERATOR_TYPES.contains (currentToken tokens index).type then
        let op := currentToken tokens index
        (prev.binaryS (currentPrec + 1) (index + 1)).bind fun rhs i2 =>
        prev.binLoop (.binary lhs rhs op.value) min i2
      else .ok lhs index
    else .ok lhs index
  -- Parser::parseUnary: (UNARY_OP UNARY) or PRIMARY.
  unaryS := fun index =>
    if UNARY_OPERATOR_TYPES.contains (currentToken tokens index).type then
      let op := currentToken tokens index
      (prev.unaryS (index + 1)).bind fun expr i2 =>
      .ok (.unary expr op.value) i2
    else prev.primaryS index
  -- Parser::parsePrimary: literals, identifiers (possibly calls), and
  -- parenthesized expressions.  NUMBER literals always get TypeInfo INTEGER.
  primaryS := fun index =>
    let token := currentToken tokens index
    let (mS, iS) := matchT tokens index .STRING
    if mS then .ok (.literal token.value (mkTI .STRING)) iS
    else
      let (mN, iN) := matchT tokens index .NUMBER
      if mN then .ok (.literal token.value (mkTI .INTEGER)) iN
      else
        let (mT, iT) := matchT tokens index .TRUE
        if mT then .ok (.literal token.value (mkTI .BOOL)) iT
        else
          let (mF, iF) := matchT tokens index .FALSE
          if mF then .ok (.literal token.value (mkTI .BOOL)) iF
          else
            let (mI, iI) := matchT tokens index .IDENTIFIER
            if mI then
              if (currentToken tokens iI).type = .LPAREN then
                prev.callS token.value iI
              else .ok (.varRef token.value) iI
            else
              let (mL, iL) := matchT tokens index .LPAREN
              if mL then
                (prev.expr iL).bind fun expr i2 =>
                let (mR, iR) := matchT tokens i2 .RPAREN
                if !mR then .err (perr tokens iR "Expected a `)` after the expression.")
                else .ok expr iR
              else .err (perr tokens index "Expected a primary expression.")
  -- Parser::parseCall: '(' (EXPR (',' EXPR)*)? ')' with the callee variable.
  callS := fun callee index =>
    let (m1, i1) := matchT tokens index .LPAREN
    if !m1 then .err (perr tokens i1 "Expected a `(` after the function identifier.")
    else
      (if (currentToken tokens i1).type = .RPAREN then .ok [] i1
       else prev.argsLoop [] i1).bind fun args i2 =>
      let (mR, i3) := matchT tokens i2 .RPAREN
      if !mR then .err (perr tokens i3 "Expected a `)` after the argument list.")
      else .ok (.call callee args) i3
  -- The argument loop of Parser::parseCall.  Note the trailing-comma check
  -- re-runs match(COMMA), consuming a second comma when present.
  argsLoop := fun acc index =>
    (prev.expr index).bind fun arg i1 =>
    if (currentToken tokens i1).type = .RPAREN then .ok (acc ++ [arg]) i1
    else
      let (mC, i2) := matchT tokens i1 .COMMA
      if !mC then .err (perr tokens i2 "Expected a `,` or `)` after the argument.")
      else
        let (mC2, i3) := matchT tokens i2 .COMMA
        if mC2 && ((peekTokenP tokens i3 1).type == .RPAREN) then
          .err (perr tokens i3 "Expected an argument after the comma.")
        else prev.argsLoop (acc ++ [arg]) i3
  -- The statement loop of Parser::parse: until the current token is EOS.
  programLoop := fun acc index =>
    if (currentToken tokens index).type = .EOS then .ok acc index
    else
      (prev.stmt index).bind fun stmtN i1 =>
      prev.programLoop (acc ++ [stmtN]) i1

/-- The parser at a given fuel level. -/
def parserRun (tokens : List Tok) : Nat → ParserFns
  | 0 => parserSpin
  | fuel + 1 => parserStep tokens (parserRun tokens fuel)

/-- Parser::parseStmt at a fuel level. -/
def parseStmtF (tokens : List Tok) (fuel index : Nat) : PRes Node :=
  (parserRun tokens fuel).stmt index

/-- Parser::parseExpr at a fuel level. -/
def parseExprF (tokens : List Tok) (fuel index : Nat) : PRes Node :=
  (parserRun tokens fuel).expr index

/-- Parser::parsePrimary at a fuel level. -/
def parsePrimaryF (tokens : List Tok) (fuel index : Nat) : PRes Node :=
  (parserRun tokens fuel).primaryS index

/-- Fuel for the parser: every parse function strictly deepens the call tree
only finitely often per token, so this bound is generous.  (Parser
termination is not among the verified claims; `spin` records exhaustion.) -/
def parseFuel (tokens : List Tok) : Nat := (tokens.length + 2) * 16

/-- Parser::parse: the statement loop from cursor 0, wrapped in a Program. -/
def parse (tokens : List Tok) : PRes Node :=
  ((parserRun tokens (parseFuel tokens)).programLoop [] 0).bind fun body i1 =>
  .ok (.program body) i1

/-! ## Code emitter (codegen.cpp, codegen.hpp, types.hpp)

LLVM is abstracted to just what the emitter manipulates: IR types, values
(constants, arguments, instruction results), the instruction stream the
builder appends to, and the module's functions, globals and string
constants.  Basic-block structure and IRBuilder constant folding are not
modelled; no claim below depends on either. -/

/-- The LLVM types produced by Codegen::getType. -/
inductive IRType where
  | i1 | i32 | f32 | f64 | i8ptr | voidTy
  deriving DecidableEq, Repr

/-- Codegen::getType: TypeInfo to LLVM type; the default (UNKNOWN) case
returns nullptr, modelled as `none`. -/
def getType (t : TypeInfo) : Option IRType :=
  match t.dataType with
  | .INTEGER => some .i32
  | .FLOAT => some .f32
  | .DOUBLE => some .f64
  | .BOOL => some .i1
  | .STRING => some .i8ptr
  | .VOID => some .voidTy
  | .UNKNOWN => none

/-- An llvm::Value the emitter can hold: integer constants (APInt semantics:
`val` is the two's-complement residue), floating constants (raw lexeme,
uninterpreted), the pointer cast of a private string global, an incoming
function argument, or an instruction result. -/
inductive Value where
  | constInt (bits : Nat) (val : Nat)
  | constFP (width : Nat) (raw : String)
  | strPtr (gid : Nat)
  | argRef (fname : String) (i : Nat) (ty : Option IRType)
  | instrRef (id : Nat) (ty : Option IRType)
  deriving DecidableEq, Repr

/-- llvm::Value::getType of an embedded value. -/
def valueTy : Value → Option IRType
  | .constInt bits _ => some (if bits = 1 then .i1 else .i32)
  | .constFP width _ => some (if width = 32 then .f32 else .f64)
  | .strPtr _ => some .i8ptr
  | .argRef _ _ ty => ty
  | .instrRef _ ty => ty

/-- Whether llvm::cast<llvm::Constant> succeeds on the value (pointer casts
of globals fold to constant expressions). -/
def isConstantV : Value → Bool
  | .constInt _ _ => true
  | .constFP _ _ => true
  | .strPtr _ => true
  | .argRef _ _ _ => false
  | .instrRef _ _ => false

/-- The instructions the emitter creates through the IRBuilder.  `binop` and
`unop` carry the LLVM opcode name (add, sub, mul, fdiv, icmp-ult, icmp-ugt,
icmp-eq, icmp-ne, icmp-ule, icmp-uge, neg, not). -/
inductive Instr where
  | alloca (id : Nat) (ty : Option IRType) (name : String)
  | store (v : Value) (slot : Nat)
  | loadSlot (id slot : Nat) (ty : Option IRType) (name : String)
  | loadGlobalI (id : Nat) (gname : String) (ty : Option IRType)
  | binop (id : Nat) (kind : String) (l r : Value)
  | unop (id : Nat) (kind : String) (v : Value)
  | callI (id : Nat) (fname : String) (args : List Value)
  | retI (v : Value)
  deriving DecidableEq, Repr

/-- A module-scope llvm::GlobalVariable (constant, external linkage). -/
structure GlobalVar where
  ty : Option IRType
  init : Value
  deriving DecidableEq, Repr

/-- An llvm::AllocaInst handle: its instruction id and allocated type. -/
structure AllocaRec where
  id : Nat
  allocatedType : Option IRType
  deriving DecidableEq, Repr

/-- types::Function: the current-function record (name, parameter and return
types, function-scope constants and locals). -/
structure FuncRec where
  name : String
  paramTypes : List (Option IRType)
  retType : Option IRType
  constants : List (String × Value)
  locals : List (String × AllocaRec)
  deriving DecidableEq, Repr

/-- An llvm::Function in the module: type signature plus parameter names. -/
structure IRFunc where
  name : String
  paramTypes : List (Option IRType)
  retType : Option IRType
  varargs : Bool
  paramNames : List String
  deriving DecidableEq, Repr

/-- The Codegen object's state: the module (functions, private string
globals), the module-scope symbol tables, the optional current-function
record, and the builder's instruction stream with its id counter. -/
structure CGState where
  functions : List IRFunc
  strs : List String
  constants : List (String × Value)
  globals : List (String × GlobalVar)
  currentFunc : Option FuncRec
  instrs : List Instr
  nextId : Nat
  deriving DecidableEq, Repr

/-- Emitter failure: errors::CodegenError, std::bad_variant_access from
std::get on the wrong RetT alternative, llvm::cast<Constant> on a
non-constant, a dereference of a null currentFunc, or a std::stoi
exception. -/
inductive CGErr where
  | codegen (msg : String)
  | variantAccess
  | castFail
  | nullDeref
  | stdExc (what : String)
  deriving DecidableEq, Repr

/-- types::RetT, the visitor result variant. -/
inductive RetT where
  | unitR
  | strR (s : String)
  | typeR (t : TypeInfo)
  | valueR (v : Value)
  | funcR (f : IRFunc)
  deriving DecidableEq, Repr

/-- Lookup in an unordered_map modelled as an association list. -/
def lookupA {α : Type} (m : List (String × α)) (k : String) : Option α := m.lookup k

/-- unordered_map::contains. -/
def containsA {α : Type} (m : List (String × α)) (k : String) : Bool :=
  (lookupA m k).isSome

/-- unordered_map insert-or-assign (operator[] followed by assignment). -/
def setA {α : Type} : List (String × α) → String → α → List (String × α)
  | [], k, v => [(k, v)]
  | (k', v') :: rest, k, v =>
    if k' = k then (k, v) :: rest else (k', v') :: setA rest k v

/-- std::get<llvm::Value*> on RetT. -/
def getSV : RetT → Except CGErr Value
  | .valueR v => .ok v
  | _ => .error .variantAccess

/-- llvm::cast<llvm::Constant>. -/
def castConst (v : Value) : Except CGErr Value :=
  if isConstantV v then .ok v else .error .castFail

/-- std::stoi: optional whitespace and sign, then a digit run; no digits is
invalid_argument and a value outside int's range is out_of_range. -/
def cppStoi (s : String) : Except String Int :=
  let cs := s.toList.dropWhile cIsSpace
  let (sign, cs2) : Int × List Char :=
    match cs with
    | '-' :: r => (-1, r)
    | '+' :: r => (1, r)
    | r => (1, r)
  let digits := cs2.takeWhile Char.isDigit
  if digits.isEmpty then .error "invalid stoi argument"
  else
    let mag : Nat := digits.foldl (fun a c => a * 10 + (c.toNat - '0'.toNat)) 0
    let v : Int := sign * mag
    if v < -2147483648 ∨ 2147483647 < v then .error "stoi out of range"
    else .ok v

/-- APInt(bits, v): the two's-complement residue of v modulo 2^bits. -/
def apIntVal (bits : Nat) (v : Int) : Nat := (v % ((2 : Int) ^ bits)).toNat

/-- Codegen::initTable: true/false in the module constant table, plus the
pre-declared variadic external printf(i8*, ...) -> i32. -/
def initCG : CGState where
  functions := [⟨"printf", [some .i8ptr], some .i32, true, []⟩]
  strs := []
  constants := [("true", .constInt 1 1), ("false", .constInt 1 0)]
  globals := []
  currentFunc := none
  instrs := []
  nextId := 0

/-- Codegen::createString: a private null-terminated module global plus a
pointer cast to i8*. -/
def createString (st : CGState) (value : String) : Value × CGState :=
  (.strPtr st.strs.length, { st with strs := st.strs ++ [value] })

/-- Codegen::visit(LiteralNode): parse the raw lexeme according to the
TypeInfo tag.  The INTEGER case converts with std::stoi, truncating any
fractional part; VOID and UNKNOWN return monostate. -/
def visitLiteral (st : CGState) (value : String) (ti : TypeInfo) :
    Except CGErr (RetT × CGState) :=
  match ti.dataType with
  | .INTEGER =>
    match cppStoi value with
    | .ok v => .ok (.valueR (.constInt 32 (apIntVal 32 v)), st)
    | .error w => .error (.stdExc w)
  | .FLOAT => .ok (.valueR (.constFP 32 value), st)
  | .DOUBLE => .ok (.valueR (.constFP 64 value), st)
  | .BOOL => .ok (.valueR (.constInt 1 (if value = "true" then 1 else 0)), st)
  | .STRING =>
    let (v, st') := createString st value
    .ok (.valueR v, st')
  | .VOID => .ok (.unitR, st)
  | .UNKNOWN => .ok (.unitR, st)

/-- Codegen::loadGlobal: load from the named global (by its value type). -/
def loadGlobal (st : CGState) (name : String) : Except CGErr (Value × CGState) :=
  match lookupA st.globals name with
  | some g =>
    let id := st.nextId
    .ok (.instrRef id g.ty,
         { st with instrs := st.instrs ++ [.loadGlobalI id name g.ty], nextId := id + 1 })
  | none => .error (.codegen ("Unknown global variable: " ++ name))

/-- Codegen::visit(VariableNode): the name-resolution order as written in
codegen.cpp — module globals first (load), then module constants, then the
current function's locals (load from the stack slot), then its constants;
otherwise CodegenError.  (The `.nullDeref` arms model operator[] reads that
the preceding contains() checks make unreachable.) -/
def visitVariable (st : CGState) (name : String) : Except CGErr (RetT × CGState) :=
  if containsA st.globals name then
    match loadGlobal st name with
    | .ok (v, st') => .ok (.valueR v, st')
    | .error e => .error e
  else if containsA st.constants name then
    match lookupA st.constants name with
    | some c => .ok (.valueR c, st)
    | none => .error .nullDeref
  else
    match st.currentFunc with
    | some f =>
      if containsA f.locals name then
        match lookupA f.locals name with
        | some a =>
          let id := st.nextId
          .ok (.valueR (.instrRef id a.allocatedType),
               { st with instrs := st.instrs ++ [.loadSlot id a.id a.allocatedType name],
                         nextId := id + 1 })
        | none => .error .nullDeref
      else if containsA f.constants name then
        match lookupA f.constants name with
        | some c => .ok (.valueR c, st)
        | none => .error .nullDeref
      else .error (.codegen ("Unknown variable referenced: " ++ name))
    | none => .error (.codegen ("Unknown variable referenced: " ++ name))

mutual

/-- The Codegen visitor: one arm per visit member function of codegen.cpp
(dispatched in C++ through ASTNode::accept). -/
def emitNode : Node → CGState → Except CGErr (RetT × CGState)
  | .program body, st => do
    -- visit(ProgramNode): accept each child; return monostate.
    let st' ← emitSeq body st
    return (.unitR, st')
  | .literal value ti, st => visitLiteral st value ti
  | .varDecl name ti value isConst, st => do
    -- visit(VarDeclNode)
    let type := getType ti
    match st.currentFunc with
    | some _ => do
      -- Local definition: lower the initializer.
      let (r, st1) ← emitNode value st
      let v ← getSV r
      if isConst then
        -- Register the constant in the current function's table.
        let c ← castConst v
        match st1.currentFunc with
        | some f =>
          return (.unitR,
            { st1 with currentFunc := some { f with constants := setA f.constants name c } })
        | none => .error .nullDeref
      else
        -- Allocate a stack slot, store the value, register the local.
        let id := st1.nextId
        let st2 := { st1 with
          instrs := st1.instrs ++ [Instr.alloca id type name, Instr.store v id],
          nextId := id + 1 }
        match st2.currentFunc with
        | some f =>
          return (.unitR,
            { st2 with currentFunc := some { f with locals := setA f.locals name ⟨id, type⟩ } })
        | none => .error .nullDeref
    | none => do
      -- Global definition (the initial Constant::getNullValue is dead: it is
      -- overwritten before use).  The initializer is lowered before the
      -- const check.
      let (r, st1) ← emitNode value st
      let v ← getSV r
      if !isConst then
        .error (.codegen ("Global variable must be constant: " ++ name))
      else do
        let c ← castConst v
        let st2 := { st1 with constants := setA st1.constants name c }
        return (.unitR, { st2 with globals := setA st2.globals name ⟨type, c⟩ })
  | .assign name value, st => do
    -- visit(AssignNode): module-scope names are rejected first.
    if containsA st.constants name then
      .error (.codegen ("Cannot assign to a constant: " ++ name))
    else if containsA st.globals name then
      .error (.codegen ("Cannot assign to a global variable: " ++ name))
    else do
      let (r, st1) ← emitNode value st
      let v ← getSV r
      match st1.currentFunc with
      | some f =>
        if containsA f.constants name then
          .error (.codegen ("Cannot assign to constant variable: " ++ name))
        else if !(containsA f.locals name) then
          .error (.codegen ("Unknown variable referenced: " ++ name))
        else
          match lookupA f.locals name with
          | some a => return (.unitR, { st1 with instrs := st1.instrs ++ [.store v a.id] })
          | none => .error .nullDeref
      | none => .error (.codegen ("Unknown variable referenced: " ++ name))
  | .varRef name, st => visitVariable st name
  | .binary lhs rhs op, st => do
    -- visit(BinaryNode): lower both sides, require equal LLVM types, then
    -- dispatch on the operator string (note "/" emits CreateFDiv).
    let (rl, st1) ← emitNode lhs st
    let l ← getSV rl
    let (rr, st2) ← emitNode rhs st1
    let r ← getSV rr
    if valueTy l ≠ valueTy r then
      .error (.codegen "Binary operands must have the same type.")
    else
      let emitB := fun (kind : String) (ty : Option IRType) =>
        let id := st2.nextId
        (Except.ok (RetT.valueR (.instrRef id ty),
          { st2 with instrs := st2.instrs ++ [.binop id kind l r], nextId := id + 1 })
          : Except CGErr (RetT × CGState))
      if op = "+" then emitB "add" (valueTy l)
      else if op = "-" then emitB "sub" (valueTy l)
      else if op = "*" then emitB "mul" (valueTy l)
      else if op = "/" then emitB "fdiv" (valueTy l)
      else if op = "<" then emitB "icmp-ult" (some .i1)
      else if op = ">" then emitB "icmp-ugt" (some .i1)
      else if op = "==" then emitB "icmp-eq" (some .i1)
      else if op = "!=" then emitB "icmp-ne" (some .i1)
      else if op = "<=" then emitB "icmp-ule" (some .i1)
      else if op = ">=" then emitB "icmp-uge" (some .i1)
      else .error (.codegen ("Invalid binary operator: " ++ op))
  | .unary operand op, st => do
    -- visit(UnaryNode): '-' is CreateNeg, '!' is CreateNot.
    let (r0, st1) ← emitNode operand st
    let v ← getSV r0
    let emitU := fun (kind : String) =>
      let id := st1.nextId
      (Except.ok (RetT.valueR (.instrRef id (valueTy v)),
        { st1 with instrs := st1.instrs ++ [.unop id kind v], nextId := id + 1 })
        : Except CGErr (RetT × CGState))
    if op = "-" then emitU "neg"
    else if op = "!" then emitU "not"
    else .error (.codegen ("Invalid unary operator: " ++ op))
  | .proto name params retTy, st =>
    -- visit(ProtoNode): build the function type, create the function with
    -- external linkage, name its parameters, return the handle.
    let paramTypes := params.map fun p => getType p.type
    let f : IRFunc := ⟨name, paramTypes, getType retTy, false, params.map fun p => p.name⟩
    .ok (.funcR f, { st with functions := st.functions ++ [f] })
  | .block body, st => do
    -- visit(BlockNode): accept each child statement in order.
    let st' ← emitSeq body st
    return (.unitR, st')
  | .funcDecl pname params retTy body, st => do
    -- visit(FuncDeclNode).  The ProtoPtr child's accept, visit(ProtoNode),
    -- is inlined here.
    let paramTypes := params.map fun p => getType p.type
    let f : IRFunc := ⟨pname, paramTypes, getType retTy, false, params.map fun p => p.name⟩
    let st1 := { st with functions := st.functions ++ [f] }
    -- Save the caller's record; install a fresh Function record.
    let prev := st1.currentFunc
    let fr : FuncRec := ⟨pname, paramTypes, getType retTy, [], []⟩
    -- Entry basic block created here (block structure not modelled).
    -- Arguments: alloca a slot, store the incoming argument, register it.
    let (fr2, st2) := params.enum.foldl
      (fun (acc : FuncRec × CGState) (pi : Nat × Parameter) =>
        let ty := getType pi.2.type
        let id := acc.2.nextId
        let stB := { acc.2 with
          instrs := acc.2.instrs ++
            [Instr.alloca id ty pi.2.name, Instr.store (.argRef pname pi.1 ty) id],
          nextId := id + 1 }
        ({ acc.1 with locals := setA acc.1.locals pi.2.name ⟨id, ty⟩ }, stB))
      (fr, st1)
    let st3 := { st2 with currentFunc := some fr2 }
    -- Lower the body (visit(BlockNode) on the BlockPtr child).
    let st4 ← emitSeq body st3
    -- Restore the caller's record.
    return (.funcR f, { st4 with currentFunc := prev })
  | .call callee args, st => do
    -- visit(CallNode): look the callee up in the module, lower arguments,
    -- emit the call.
    match st.functions.find? fun f => f.name = callee with
    | none => .error (.codegen ("Unknown function referenced: " ++ callee))
    | some f => do
      let (vs, st1) ← emitArgs args st
      let id := st1.nextId
      return (.valueR (.instrRef id f.retType),
        { st1 with instrs := st1.instrs ++ [.callI id callee vs], nextId := id + 1 })
  | .retStmt value, st => do
    -- visit(ReturnNode): lower the expression and CreateRet.
    let (r0, st1) ← emitNode value st
    let v ← getSV r0
    return (.unitR, { st1 with instrs := st1.instrs ++ [.retI v] })

/-- Child-by-child accept, as in visit(ProgramNode)/visit(BlockNode). -/
def emitSeq : List Node → CGState → Except CGErr CGState
  | [], st => .ok st
  | n :: rest, st => do
    let (_, st1) ← emitNode n st
    emitSeq rest st1

/-- Argument lowering of visit(CallNode): each value through std::get. -/
def emitArgs : List Node → CGState → Except CGErr (List Value × CGState)
  | [], st => .ok ([], st)
  | n :: rest, st => do
    let (r, st1) ← emitNode n st
    let v ← getSV r
    let (vs, st2) ← emitArgs rest st1
    return (v :: vs, st2)

end

/-- Emit a whole program from the freshly initialised Codegen state. -/
def emitProgram (n : Node) : Except CGErr (RetT × CGState) := emitNode n initCG

/-! ## Auxiliary notions used by the claims -/

/-- Order on (line, column) positions: lexicographic. -/
def posLe (a b : Nat × Nat) : Prop := a.1 < b.1 ∨ (a.1 = b.1 ∧ a.2 ≤ b.2)

mutual

/-- No Literal node in the tree carries a FLOAT or DOUBLE TypeInfo tag. -/
def noFloatLit : Node → Bool
  | .program body => noFloatLitL body
  | .literal _ ti => !(ti.dataType == .FLOAT) && !(ti.dataType == .DOUBLE)
  | .varDecl _ _ value _ => noFloatLit value
  | .assign _ value => noFloatLit value
  | .varRef _ => true
  | .binary lhs rhs _ => noFloatLit lhs && noFloatLit rhs
  | .unary operand _ => noFloatLit operand
  | .proto _ _ _ => true
  | .block body => noFloatLitL body
  | .funcDecl _ _ _ body => noFloatLitL body
  | .call _ args => noFloatLitL args
  | .retStmt value => noFloatLit value

/-- `noFloatLit` over every node in a list. -/
def noFloatLitL : List Node → Bool
  | [] => true
  | n :: rest => noFloatLit n && noFloatLitL rest

end

/-- The lexeme of a reserved token kind, read off the RESERVED table. -/
def opLexeme (t : TokType) : String :=
  match RESERVED.find? fun p => p.2 == t with
  | some p => p.1
  | none => ""

/-- Cursor evolution invariant of one lexer step: the index is monotone,
stays within the source, and the (line, column) position is monotone. -/
def stepOK (src : List Char) (st st' : LexSt) : Prop :=
  st.index ≤ st'.index ∧ (st.index ≤ src.length → st'.index ≤ src.length) ∧
  posLe (st.line, st.column) (st'.line, st'.column)

/-- Common contract of the token-producing lexer helpers from a state with
the dispatch precondition: no spin; success keeps the cursor invariants,
stamps the token with the final position, and strictly advances; failure
reports a position inside the source. -/
def tokOK (src : List Char) (st : LexSt) (r : LexRes (Tok × LexSt)) : Prop :=
  (r ≠ .spin) ∧
  (∀ tok st', r = .ok (tok, st') →
    stepOK src st st' ∧ tok.line = st'.line ∧ tok.col = st'.column ∧ st.index < st'.index) ∧
  (∀ e, r = .err e → st.index ≤ src.length → e.index ≤ src.length)

/-- A state in which the name "x" is bound both as a module global and as a
local of the current function. -/
def shadowSt : CGState :=
  { initCG with
    globals := [("x", ⟨some .i32, .constInt 32 7⟩)],
    currentFunc := some ⟨"main", [], some .i32, [], [("x", ⟨0, some .i32⟩)]⟩ }


/-- Every Node-producing procedure of a parser level only produces trees
with no FLOAT/DOUBLE literal (loop procedures relative to their
accumulator, the binary loop relative to its left-hand side). -/
def NoFloatFns (fns : ParserFns) : Prop :=
  (∀ i n j, fns.stmt i = .ok n j → noFloatLit n = true) ∧
  (∀ i n j, fns.varDeclS i = .ok n j → noFloatLit n = true) ∧
  (∀ i n j, fns.assignS i = .ok n j → noFloatLit n = true) ∧
  (∀ i n j, fns.funcDeclS i = .ok n j → noFloatLit n = true) ∧
  (∀ i n j, fns.returnS i = .ok n j → noFloatLit n = true) ∧
  (∀ i n j, fns.exprStmtS i = .ok n j → noFloatLit n = true) ∧
  (∀ i l j, fns.blockS i = .ok l j → noFloatLitL l = true) ∧
  (∀ acc i l j, noFloatLitL acc = true → fns.blockLoop acc i = .ok l j → noFloatLitL l = true) ∧
  (∀ i n j, fns.expr i = .ok n j → noFloatLit n = true) ∧
  (∀ min i n j, fns.binaryS min i = .ok n j → noFloatLit n = true) ∧
  (∀ lhs min i n j, noFloatLit lhs = true → fns.binLoop lhs min i = .ok n j →
    noFloatLit n = true) ∧
  (∀ i n j, fns.unaryS i = .ok n j → noFloatLit n = true) ∧
  (∀ i n j, fns.primaryS i = .ok n j → noFloatLit n = true) ∧
  (∀ c i n j, fns.callS c i = .ok n j → noFloatLit n = true) ∧
  (∀ acc i l j, noFloatLitL acc = true → fns.argsLoop acc i = .ok l j → noFloatLitL l = true) ∧
  (∀ acc i l j, noFloatLitL acc = true → fns.programLoop acc i = .ok l j → noFloatLitL l = true)

end Verte

namespace Verte

/-- Inversion for parser-step sequencing. -/
theorem PRes.bind_ok {α β : Type} {r : PRes α} {f : α → Nat → PRes β} {b : β} {j : Nat}
    (h : r.bind f = .ok b j) : ∃ a i, r = .ok a i ∧ f a i = .ok b j := by
  cases r with
  | ok a i => exact ⟨a, i, rfl, h⟩
  | err e => simp [PRes.bind] at h
  | spin => simp [PRes.bind] at h

/-- `noFloatLitL` distributes over append. -/
theorem noFloatLitL_append (a b : List Node) :
    noFloatLitL (a ++ b) = (noFloatLitL a && noFloatLitL b) := by
  induction a with
  | nil => simp [noFloatLitL]
  | cons n rest ih => simp [noFloatLitL, ih, Bool.and_assoc]

/-- Every Node produced by any fuel level of the parser contains no
FLOAT/DOUBLE-tagged Literal: Parser::parsePrimary builds literals only with
TypeInfo INTEGER, STRING or BOOL. -/
theorem noFloat_parserRun (tokens : List Tok) :
    ∀ fuel, NoFloatFns (parserRun tokens fuel) := by
  intro fuel
  induction fuel with
  | zero =>
    refine ⟨?_, ?_, ?_, ?_, ?_, ?_, ?_, ?_, ?_, ?_, ?_, ?_, ?_, ?_, ?_, ?_⟩ <;>
      (intros; simp_all [parserRun, parserSpin])
  | succ fuel ih =>
    obtain ⟨ihStmt, ihVar, ihAsn, ihFun, ihRet, ihExS, ihBlk, ihBlkL, ihExp, ihBin,
      ihBinL, ihUn, ihPrim, ihCall, ihArgs, ihProg⟩ := ih
    simp only [parserRun]
    refine ⟨?_, ?_, ?_, ?_, ?_, ?_, ?_, ?_, ?_, ?_, ?_, ?_, ?_, ?_, ?_, ?_⟩
    · intro i n j h
      simp only [parserStep] at h
      split at h
      · exact ihVar _ _ _ h
      · split at h
        · exact ihAsn _ _ _ h
        · split at h
          · obtain ⟨body, i1, hb, hmk⟩ := PRes.bind_ok h
            cases hmk
            simpa [noFloatLit] using ihBlk _ _ _ hb
          · split at h
            · exact ihFun _ _ _ h
            · split at h
              · exact ihRet _ _ _ h
              · exact ihExS _ _ _ h
    · intro i n j h
      simp only [parserStep] at h
      split at h
      · simp at h
      · split at h
        · simp at h
        · obtain ⟨ty, i4, hty, h⟩ := PRes.bind_ok h
          try simp only [] at h
          split at h
          · simp at h
          · obtain ⟨expr, i6, hexpr, h⟩ := PRes.bind_ok h
            try simp only [] at h
            split at h
            · simp at h
            · cases h
              simpa [noFloatLit] using ihExp _ _ _ hexpr
    -- assignS
    · intro i n j h
      simp only [parserStep] at h
      split at h
      · simp at h
      · split at h
        · simp at h
        · obtain ⟨expr, i3, hexpr, h⟩ := PRes.bind_ok h
          try simp only [] at h
          split at h
          · simp at h
          · cases h
            simpa [noFloatLit] using ihExp _ _ _ hexpr
    -- funcDeclS
    · intro i n j h
      simp only [parserStep] at h
      split at h
      · simp at h
      · obtain ⟨pr, i2, hpr, h⟩ := PRes.bind_ok h
        try simp only [] at h
        split at h
        · cases h; simp [noFloatLit]
        · split at h
          · obtain ⟨body, i4, hbody, h⟩ := PRes.bind_ok h
            try simp only [] at h
            cases h
            simpa [noFloatLit] using ihBlk _ _ _ hbody
          · simp at h
    -- returnS
    · intro i n j h
      simp only [parserStep] at h
      split at h
      · simp at h
      · obtain ⟨expr, i2, hexpr, h⟩ := PRes.bind_ok h
        try simp only [] at h
        split at h
        · simp at h
        · cases h
          simpa [noFloatLit] using ihExp _ _ _ hexpr
    -- exprStmtS
    · intro i n j h
      simp only [parserStep] at h
      obtain ⟨expr, i1, hexpr, h⟩ := PRes.bind_ok h
      try simp only [] at h
      split at h
      · simp at h
      · cases h
        exact ihExp _ _ _ hexpr
    -- blockS
    · intro i l j h
      simp only [parserStep] at h
      split at h
      · simp at h
      · exact ihBlkL _ _ _ _ (by simp [noFloatLitL]) h
    -- blockLoop
    · intro acc i l j hacc h
      simp only [parserStep] at h
      split at h
      · cases h; exact hacc
      · obtain ⟨stmtN, i2, hstmt, h⟩ := PRes.bind_ok h
        try simp only [] at h
        exact ihBlkL _ _ _ _
          (by simp [noFloatLitL_append, hacc, noFloatLitL, ihStmt _ _ _ hstmt]) h
    -- expr
    · intro i n j h
      simp only [parserStep] at h
      exact ihBin _ _ _ _ h
    -- binaryS
    · intro min i n j h
      simp only [parserStep] at h
      obtain ⟨lhs, i1, hlhs, h⟩ := PRes.bind_ok h
      try simp only [] at h
      exact ihBinL _ _ _ _ _ (ihUn _ _ _ hlhs) h
    -- binLoop
    · intro lhs min i n j hlhs h
      simp only [parserStep] at h
      split at h
      · split at h
        · obtain ⟨rhs, i2, hrhs, h⟩ := PRes.bind_ok h
          try simp only [] at h
          exact ihBinL _ _ _ _ _ (by simp [noFloatLit, hlhs, ihBin _ _ _ _ hrhs]) h
        · cases h; exact hlhs
      · cases h; exact hlhs
    -- unaryS
    · intro i n j h
      simp only [parserStep] at h
      split at h
      · obtain ⟨expr, i2, hexpr, h⟩ := PRes.bind_ok h
        try simp only [] at h
        cases h
        simpa [noFloatLit] using ihUn _ _ _ hexpr
      · exact ihPrim _ _ _ h
    -- primaryS
    · intro i n j h
      simp only [parserStep] at h
      split at h
      · cases h; simp [noFloatLit, mkTI]
      · split at h
        · cases h; simp [noFloatLit, mkTI]
        · split at h
          · cases h; simp [noFloatLit, mkTI]
          · split at h
            · cases h; simp [noFloatLit, mkTI]
            · split at h
              · split at h
                · exact ihCall _ _ _ _ h
                · cases h; simp [noFloatLit]
              · split at h
                · obtain ⟨expr, i2, hexpr, h⟩ := PRes.bind_ok h
                  try simp only [] at h
                  split at h
                  · simp at h
                  · cases h
                    exact ihExp _ _ _ hexpr
                · simp at h
    -- callS
    · intro c i n j h
      simp only [parserStep] at h
      split at h
      · simp at h
      · obtain ⟨args, i2, hargs, h⟩ := PRes.bind_ok h
        try simp only [] at h
        split at h
        · simp at h
        · cases h
          split at hargs
          · cases hargs; simp [noFloatLit, noFloatLitL]
          · simpa [noFloatLit] using ihArgs _ _ _ _ (by simp [noFloatLitL]) hargs
    -- argsLoop
    · intro acc i l j hacc h
      simp only [parserStep] at h
      obtain ⟨arg, i1, harg, h⟩ := PRes.bind_ok h
      try simp only [] at h
      split at h
      · cases h
        simp [noFloatLitL_append, hacc, noFloatLitL, ihExp _ _ _ harg]
      · split at h
        · simp at h
        · split at h
          · simp at h
          · exact ihArgs _ _ _ _
              (by simp [noFloatLitL_append, hacc, noFloatLitL, ihExp _ _ _ harg]) h
    -- programLoop
    · intro acc i l j hacc h
      simp only [parserStep] at h
      split at h
      · cases h; exact hacc
      · obtain ⟨stmtN, i1, hstmt, h⟩ := PRes.bind_ok h
        try simp only [] at h
        exact ihProg _ _ _ _
          (by simp [noFloatLitL_append, hacc, noFloatLitL, ihStmt _ _ _ hstmt]) h

end Verte

namespace Verte

/-! ## Claim theorems -/

/-- C1.  The claim says: IDENT followed by `=` (kind ASSIGN) dispatches to
the assignment rule.  The code dispatches on kind EQUAL (the lexeme `==`):
`a = b;` raises ParserError ("Expected a `;` after the expression." at the
`=` token, because the statement is parsed as an expression statement), and
`a == b;` parses as Assign("a", Variable("b")). -/
theorem assign_rule_dispatches_on_equal_kind :
    allTokens "a = b;".toList =
      .ok [⟨"a", .IDENTIFIER, 1, 2⟩, ⟨"=", .ASSIGN, 1, 4⟩, ⟨"b", .IDENTIFIER, 1, 6⟩,
           ⟨";", .SEMICOLON, 1, 7⟩, ⟨"END", .EOS, 1, 7⟩] ∧
    parse [⟨"a", .IDENTIFIER, 1, 2⟩, ⟨"=", .ASSIGN, 1, 4⟩, ⟨"b", .IDENTIFIER, 1, 6⟩,
           ⟨";", .SEMICOLON, 1, 7⟩, ⟨"END", .EOS, 1, 7⟩] =
      .err ⟨1, 4, "Expected a `;` after the expression."⟩ ∧
    allTokens "a == b;".toList =
      .ok [⟨"a", .IDENTIFIER, 1, 2⟩, ⟨"==", .EQUAL, 1, 5⟩, ⟨"b", .IDENTIFIER, 1, 7⟩,
           ⟨";", .SEMICOLON, 1, 8⟩, ⟨"END", .EOS, 1, 8⟩] ∧
    parse [⟨"a", .IDENTIFIER, 1, 2⟩, ⟨"==", .EQUAL, 1, 5⟩, ⟨"b", .IDENTIFIER, 1, 7⟩,
           ⟨";", .SEMICOLON, 1, 8⟩, ⟨"END", .EOS, 1, 8⟩] =
      .ok (.program [.assign "a" (.varRef "b")]) 4 :=
  ⟨rfl, rfl, rfl, rfl⟩

/-- C3.  The claim says `//` consumes the rest of the line and yields no
token.  In the code, Lexer::nextToken only ever calls skipWs —
Lexer::skip/skipComments are never invoked — so "// c\nfoo" lexes the
comment text itself: two SLASH tokens and the IDENTIFIER "c", then "foo". -/
theorem line_comment_not_skipped :
    allTokens "// c\nfoo".toList =
      .ok [⟨"/", .SLASH, 1, 2⟩, ⟨"/", .SLASH, 1, 3⟩, ⟨"c", .IDENTIFIER, 1, 5⟩,
           ⟨"foo", .IDENTIFIER, 2, 4⟩, ⟨"END", .EOS, 2, 4⟩] := rfl

/-- C4.  The claim says PRECEDENCE maps `and` to 1 like `or`, making
`a and b;` parse as a Binary node.  In the code AND is a member of
BINARY_OPERATOR_TYPES but has no PRECEDENCE entry, so getPrecedence yields
-1 and the precedence-climb loop never consumes it: `a and b;` raises
ParserError at the `and` token. -/
theorem and_has_no_precedence :
    getPrecedence .AND = -1 ∧
    getPrecedence .OR = 1 ∧
    TokType.AND ∈ BINARY_OPERATOR_TYPES ∧
    allTokens "a and b;".toList =
      .ok [⟨"a", .IDENTIFIER, 1, 2⟩, ⟨"and", .AND, 1, 6⟩, ⟨"b", .IDENTIFIER, 1, 8⟩,
           ⟨";", .SEMICOLON, 1, 9⟩, ⟨"END", .EOS, 1, 9⟩] ∧
    parse [⟨"a", .IDENTIFIER, 1, 2⟩, ⟨"and", .AND, 1, 6⟩, ⟨"b", .IDENTIFIER, 1, 8⟩,
           ⟨";", .SEMICOLON, 1, 9⟩, ⟨"END", .EOS, 1, 9⟩] =
      .err ⟨1, 6, "Expected a `;` after the expression."⟩ :=
  ⟨rfl, rfl, by decide, rfl, rfl⟩

/-- C5.  The claim says the arrow is accepted exactly for the token pair
`-` `>` and any other pair raises ParserError.  The check in
Parser::parseProto errors only when the current token is not `-` AND the
peeked token is not `>`, then skips two tokens: the program
`fn f() x > int;` — where the pair is IDENT `x` followed by `>` — is
accepted as a complete prototype with return type int. -/
theorem proto_arrow_check_accepts_non_arrow :
    allTokens "fn f() x > int;".toList =
      .ok [⟨"fn", .FN, 1, 3⟩, ⟨"f", .IDENTIFIER, 1, 5⟩, ⟨"(", .LPAREN, 1, 6⟩,
           ⟨")", .RPAREN, 1, 7⟩, ⟨"x", .IDENTIFIER, 1, 9⟩, ⟨">", .GREATER, 1, 11⟩,
           ⟨"int", .IDENTIFIER, 1, 15⟩, ⟨";", .SEMICOLON, 1, 16⟩, ⟨"END", .EOS, 1, 16⟩] ∧
    parse [⟨"fn", .FN, 1, 3⟩, ⟨"f", .IDENTIFIER, 1, 5⟩, ⟨"(", .LPAREN, 1, 6⟩,
           ⟨")", .RPAREN, 1, 7⟩, ⟨"x", .IDENTIFIER, 1, 9⟩, ⟨">", .GREATER, 1, 11⟩,
           ⟨"int", .IDENTIFIER, 1, 15⟩, ⟨";", .SEMICOLON, 1, 16⟩, ⟨"END", .EOS, 1, 16⟩] =
      .ok (.program [.proto "f" [] ⟨.INTEGER, "int"⟩]) 8 :=
  ⟨rfl, rfl⟩

/-- tokens.back() of a non-empty vector is the last element. -/
theorem backTok_eq_getLast (tokens : List Tok) (hne : tokens ≠ []) :
    backTok tokens = tokens.getLast hne := by
  simp [backTok, List.getLastD_eq_getLast?, List.getLast?_eq_getLast _ hne]

/-- C10.  For a non-empty token vector whose last element is END_OF_STREAM,
the accessors are total: at or past the end, currentToken, nextToken and
peekToken all return the final EOS token (and nextToken clamps the cursor to
the vector size); in range, currentToken is plain indexing. -/
theorem token_accessors_total :
    ∀ (tokens : List Tok) (hne : tokens ≠ []) (index : Nat),
      (tokens.getLast hne).type = .EOS →
      (tokens.length ≤ index →
        currentToken tokens index = tokens.getLast hne ∧
        (currentToken tokens index).type = .EOS ∧
        nextTokenP tokens index = (tokens.getLast hne, tokens.length) ∧
        ∀ offset, peekTokenP tokens index offset = tokens.getLast hne) ∧
      (∀ h : index < tokens.length, currentToken tokens index = tokens.get ⟨index, h⟩) := by
  intro tokens hne index hEOS
  constructor
  · intro hge
    have hcur : ∀ j, tokens.length ≤ j → currentToken tokens j = tokens.getLast hne := by
      intro j hj
      simp [currentToken, hj, backTok_eq_getLast tokens hne]
    refine ⟨hcur index hge, ?_, ?_, ?_⟩
    · rw [hcur index hge]; exact hEOS
    · have h1 : currentToken tokens (index + 1) = tokens.getLast hne :=
        hcur (index + 1) (Nat.le_succ_of_le hge)
      simp [nextTokenP, h1, hEOS, backTok_eq_getLast tokens hne]
    · intro offset
      have : tokens.length ≤ index + offset := Nat.le_add_right_of_le hge
      simp [peekTokenP, this, backTok_eq_getLast tokens hne]
  · intro h
    simp [currentToken, Nat.not_le.mpr h, List.getD_eq_getElem?_getD,
      List.getElem?_eq_getElem h, List.get_eq_getElem]

/-- Witness for C10 at a concrete vector and an out-of-range cursor. -/
theorem token_accessors_total_witness :
    currentToken [⟨"END", .EOS, 1, 1⟩] 3 = ⟨"END", .EOS, 1, 1⟩ ∧
    (currentToken [⟨"END", .EOS, 1, 1⟩] 3).type = .EOS ∧
    nextTokenP [⟨"END", .EOS, 1, 1⟩] 3 = (⟨"END", .EOS, 1, 1⟩, 1) ∧
    ∀ offset, peekTokenP [⟨"END", .EOS, 1, 1⟩] 3 offset = ⟨"END", .EOS, 1, 1⟩ := by
  have h := (token_accessors_total [⟨"END", .EOS, 1, 1⟩] (by simp) 3 rfl).1 (by norm_num)
  simpa using h

/-- C2 counterexample.  The claim says function locals are consulted first,
so "x" should resolve to a load from stack slot 0.  The code consults module
globals first: the emitted instruction is a load of the global "x", not a
load from the local's slot. -/
theorem variable_global_shadows_local :
    visitVariable shadowSt "x" =
      .ok (.valueR (.instrRef 0 (some .i32)),
        { shadowSt with instrs := [Instr.loadGlobalI 0 "x" (some .i32)], nextId := 1 }) ∧
    visitVariable shadowSt "x" ≠
      .ok (.valueR (.instrRef 0 (some .i32)),
        { shadowSt with instrs := [Instr.loadSlot 0 0 (some .i32) "x"], nextId := 1 }) := by
  refine ⟨rfl, fun h => ?_⟩
  have h2 :
      (.ok (.valueR (.instrRef 0 (some .i32)),
        { shadowSt with instrs := [Instr.loadGlobalI 0 "x" (some .i32)], nextId := 1 })
        : Except CGErr (RetT × CGState)) =
      .ok (.valueR (.instrRef 0 (some .i32)),
        { shadowSt with instrs := [Instr.loadSlot 0 0 (some .i32) "x"], nextId := 1 }) := h
  simp [shadowSt] at h2

/-- C2 as amended.  Codegen::visit(VariableNode) resolves a name by
consulting module globals first (emitting a load of the global), then module
constants, then — only when the name is bound at module scope in neither —
the current function's locals (emitting a load from the stack slot), then
the current function's constants; a name found in none of the four tables,
or in neither module table when no function record is installed, raises
CodegenError.  In particular a module-scope binding shadows a
function-scope binding of the same name. -/
theorem variable_resolution_order :
    ∀ (st : CGState) (name : String),
      (∀ g, lookupA st.globals name = some g →
        visitVariable st name =
          .ok (.valueR (.instrRef st.nextId g.ty),
            { st with instrs := st.instrs ++ [Instr.loadGlobalI st.nextId name g.ty],
                      nextId := st.nextId + 1 })) ∧
      (lookupA st.globals name = none →
        ∀ c, lookupA st.constants name = some c →
          visitVariable st name = .ok (.valueR c, st)) ∧
      (lookupA st.globals name = none → lookupA st.constants name = none →
        ∀ f, st.currentFunc = some f →
          (∀ a, lookupA f.locals name = some a →
            visitVariable st name =
              .ok (.valueR (.instrRef st.nextId a.allocatedType),
                { st with
                    instrs := st.instrs ++ [Instr.loadSlot st.nextId a.id a.allocatedType name],
                    nextId := st.nextId + 1 })) ∧
          (lookupA f.locals name = none →
            ∀ c, lookupA f.constants name = some c →
              visitVariable st name = .ok (.valueR c, st)) ∧
          (lookupA f.locals name = none → lookupA f.constants name = none →
            visitVariable st name =
              .error (.codegen ("Unknown variable referenced: " ++ name)))) ∧
      (lookupA st.globals name = none → lookupA st.constants name = none →
        st.currentFunc = none →
        visitVariable st name =
          .error (.codegen ("Unknown variable referenced: " ++ name))) := by
  intro st name
  refine ⟨?_, ?_, ?_, ?_⟩
  · intro g hg
    simp [visitVariable, containsA, loadGlobal, hg]
  · intro hg c hc
    simp [visitVariable, containsA, hg, hc]
  · intro hg hc f hf
    refine ⟨?_, ?_, ?_⟩
    · intro a ha
      simp [visitVariable, containsA, hg, hc, hf, ha]
    · intro hl c hfc
      simp [visitVariable, containsA, hg, hc, hf, hl, hfc]
    · intro hl hfc
      simp [visitVariable, containsA, hg, hc, hf, hl, hfc]
  · intro hg hc hnone
    simp [visitVariable, containsA, hg, hc, hnone]

/-- Witness for C2 at concrete states: the global branch on `shadowSt` and
the module-constant branch on the initial state ("true"). -/
theorem variable_resolution_order_witness :
    visitVariable shadowSt "x" =
      .ok (.valueR (.instrRef 0 (some .i32)),
        { shadowSt with instrs := [Instr.loadGlobalI 0 "x" (some .i32)], nextId := 1 }) ∧
    visitVariable initCG "true" = .ok (.valueR (.constInt 1 1), initCG) :=
  ⟨(variable_resolution_order shadowSt "x").1 ⟨some .i32, .constInt 32 7⟩ rfl,
   (variable_resolution_order initCG "true").2.1 rfl (.constInt 1 1) rfl⟩

/-- C8.  The parser accepts a module-scope VarDecl without `const`
("foo: int = 100;" parses with is_const = false); emitting any VarDecl with
is_const = false while no current function record is installed yields an
error — a CodegenError "Global variable must be constant" when the
initializer lowers to a value — and the concrete program produces exactly
that CodegenError. -/
theorem module_vardecl_requires_const :
    allTokens "foo: int = 100;".toList =
      .ok [⟨"foo", .IDENTIFIER, 1, 4⟩, ⟨":", .COLON, 1, 5⟩, ⟨"int", .IDENTIFIER, 1, 9⟩,
           ⟨"=", .ASSIGN, 1, 11⟩, ⟨"100", .NUMBER, 1, 15⟩, ⟨";", .SEMICOLON, 1, 16⟩,
           ⟨"END", .EOS, 1, 16⟩] ∧
    parse [⟨"foo", .IDENTIFIER, 1, 4⟩, ⟨":", .COLON, 1, 5⟩, ⟨"int", .IDENTIFIER, 1, 9⟩,
           ⟨"=", .ASSIGN, 1, 11⟩, ⟨"100", .NUMBER, 1, 15⟩, ⟨";", .SEMICOLON, 1, 16⟩,
           ⟨"END", .EOS, 1, 16⟩] =
      .ok (.program [.varDecl "foo" ⟨.INTEGER, "int"⟩ (.literal "100" ⟨.INTEGER, "int"⟩) false]) 6 ∧
    (∀ (st : CGState) (name : String) (ti : TypeInfo) (value : Node),
      st.currentFunc = none →
      ∃ e, emitNode (.varDecl name ti value false) st = .error e) ∧
    emitProgram (.program [.varDecl "foo" ⟨.INTEGER, "int"⟩ (.literal "100" ⟨.INTEGER, "int"⟩) false]) =
      .error (.codegen "Global variable must be constant: foo") := by
  refine ⟨rfl, rfl, ?_, ?_⟩
  · intro st name ti value h
    cases hv : emitNode value st with
    | error e =>
      exact ⟨e, by simp only [emitNode, h, hv]; rfl⟩
    | ok p =>
      rcases p with ⟨r, st1⟩
      cases r with
      | valueR v =>
        exact ⟨.codegen ("Global variable must be constant: " ++ name),
          by simp only [emitNode, h, hv]; rfl⟩
      | unitR => exact ⟨.variantAccess, by simp only [emitNode, h, hv]; rfl⟩
      | strR s => exact ⟨.variantAccess, by simp only [emitNode, h, hv]; rfl⟩
      | typeR t => exact ⟨.variantAccess, by simp only [emitNode, h, hv]; rfl⟩
      | funcR f => exact ⟨.variantAccess, by simp only [emitNode, h, hv]; rfl⟩
  · simp only [emitProgram, emitNode, emitSeq]; rfl

/-- Witness for C8's universally quantified part at a concrete state. -/
theorem module_vardecl_requires_const_witness :
    ∃ e, emitNode (.varDecl "foo" ⟨.INTEGER, "int"⟩ (.literal "1" ⟨.INTEGER, "int"⟩) false)
      initCG = .error e :=
  module_vardecl_requires_const.2.2.1 initCG "foo" ⟨.INTEGER, "int"⟩
    (.literal "1" ⟨.INTEGER, "int"⟩) rfl

/-- C7.  For every binary operator kind that has a precedence entry, a
two-step chain of that same operator folds left-associatively; in
particular the pipeline on "1+2+3;" yields
Binary("+", Binary("+", 1, 2), 3). -/
theorem binary_same_op_left_assoc :
    (∀ t : TokType, t ∈ BINARY_OPERATOR_TYPES → 0 ≤ getPrecedence t →
      parse [⟨"1", .NUMBER, 1, 1⟩, ⟨opLexeme t, t, 1, 2⟩, ⟨"2", .NUMBER, 1, 3⟩,
             ⟨opLexeme t, t, 1, 4⟩, ⟨"3", .NUMBER, 1, 5⟩, ⟨";", .SEMICOLON, 1, 6⟩,
             ⟨"END", .EOS, 1, 6⟩] =
        .ok (.program [.binary
              (.binary (.literal "1" ⟨.INTEGER, "int"⟩) (.literal "2" ⟨.INTEGER, "int"⟩)
                (opLexeme t))
              (.literal "3" ⟨.INTEGER, "int"⟩) (opLexeme t)]) 6) ∧
    allTokens "1+2+3;".toList =
      .ok [⟨"1", .NUMBER, 1, 2⟩, ⟨"+", .PLUS, 1, 3⟩, ⟨"2", .NUMBER, 1, 4⟩,
           ⟨"+", .PLUS, 1, 5⟩, ⟨"3", .NUMBER, 1, 6⟩, ⟨";", .SEMICOLON, 1, 7⟩,
           ⟨"END", .EOS, 1, 7⟩] ∧
    parse [⟨"1", .NUMBER, 1, 2⟩, ⟨"+", .PLUS, 1, 3⟩, ⟨"2", .NUMBER, 1, 4⟩,
           ⟨"+", .PLUS, 1, 5⟩, ⟨"3", .NUMBER, 1, 6⟩, ⟨";", .SEMICOLON, 1, 7⟩,
           ⟨"END", .EOS, 1, 7⟩] =
      .ok (.program [.binary
            (.binary (.literal "1" ⟨.INTEGER, "int"⟩) (.literal "2" ⟨.INTEGER, "int"⟩) "+")
            (.literal "3" ⟨.INTEGER, "int"⟩) "+"]) 6 := by
  refine ⟨?_, rfl, rfl⟩
  intro t ht hp
  fin_cases ht <;> first
    | rfl
    | exact absurd hp (by decide)

/-- C9.  Every NUMBER token is parsed by parsePrimary into a Literal tagged
INTEGER (whatever the lexeme, "3.14" included); no parse ever produces a
Literal tagged FLOAT or DOUBLE; and the emitter lowers an INTEGER-tagged
literal with std::stoi on the raw string, so "3.14" becomes the i32
constant 3 — the fractional part is truncated. -/
theorem number_literals_are_integer :
    (∀ (tokens : List Tok) (fuel index : Nat),
      (currentToken tokens index).type = .NUMBER →
      parsePrimaryF tokens (fuel + 1) index =
        .ok (.literal (currentToken tokens index).value ⟨.INTEGER, "int"⟩) (index + 1)) ∧
    (∀ (tokens : List Tok) (prog : Node) (i : Nat),
      parse tokens = .ok prog i → noFloatLit prog = true) ∧
    (∀ st : CGState, visitLiteral st "3.14" ⟨.INTEGER, "int"⟩ =
      .ok (.valueR (.constInt 32 3), st)) ∧
    cppStoi "3.14" = .ok 3 := by
  refine ⟨?_, ?_, fun st => rfl, rfl⟩
  · intro tokens fuel index h
    simp [parsePrimaryF, parserRun, parserStep, matchT, h, mkTI, dataTypeName]
  · intro tokens prog i h
    obtain ⟨body, i1, hbody, hmk⟩ := PRes.bind_ok h
    cases hmk
    have := (noFloat_parserRun tokens (parseFuel tokens)).2.2.2.2.2.2.2.2.2.2.2.2.2.2.2
    simpa [noFloatLit] using this [] 0 body _ (by simp [noFloatLitL]) hbody

/-- Witness for C9 at a concrete NUMBER token and the parse of "3.14;". -/
theorem number_literals_are_integer_witness :
    parsePrimaryF [⟨"3.14", .NUMBER, 1, 5⟩] 1 0 =
      .ok (.literal "3.14" ⟨.INTEGER, "int"⟩) 1 ∧
    noFloatLit (.program [.literal "3.14" ⟨.INTEGER, "int"⟩]) = true ∧
    visitLiteral initCG "3.14" ⟨.INTEGER, "int"⟩ = .ok (.valueR (.constInt 32 3), initCG) := by
  refine ⟨?_, ?_, number_literals_are_integer.2.2.1 initCG⟩
  · have h := number_literals_are_integer.1 [⟨"3.14", .NUMBER, 1, 5⟩] 0 0 rfl
    simpa using h
  · exact number_literals_are_integer.2.1
      [⟨"3.14", .NUMBER, 1, 6⟩, ⟨";", .SEMICOLON, 1, 7⟩, ⟨"END", .EOS, 1, 7⟩]
      (.program [.literal "3.14" ⟨.INTEGER, "int"⟩]) 2 rfl

/-- Witness for C7 at the `+` operator. -/
theorem binary_same_op_left_assoc_witness :
    parse [⟨"1", .NUMBER, 1, 1⟩, ⟨opLexeme .PLUS, .PLUS, 1, 2⟩, ⟨"2", .NUMBER, 1, 3⟩,
           ⟨opLexeme .PLUS, .PLUS, 1, 4⟩, ⟨"3", .NUMBER, 1, 5⟩, ⟨";", .SEMICOLON, 1, 6⟩,
           ⟨"END", .EOS, 1, 6⟩] =
      .ok (.program [.binary
            (.binary (.literal "1" ⟨.INTEGER, "int"⟩) (.literal "2" ⟨.INTEGER, "int"⟩)
              (opLexeme .PLUS))
            (.literal "3" ⟨.INTEGER, "int"⟩) (opLexeme .PLUS)]) 6 :=
  binary_same_op_left_assoc.1 .PLUS (by decide) (by decide)


theorem posLe_refl (a : Nat × Nat) : posLe a a := Or.inr ⟨rfl, Nat.le_refl _⟩

theorem posLe_trans {a b c : Nat × Nat} (h1 : posLe a b) (h2 : posLe b c) : posLe a c := by
  rcases h1 with h1 | ⟨e1, l1⟩ <;> rcases h2 with h2 | ⟨e2, l2⟩ <;>
    simp [posLe] at * <;> omega

theorem stepOK_refl (src : List Char) (st : LexSt) : stepOK src st st :=
  ⟨Nat.le_refl _, fun h => h, posLe_refl _⟩

theorem stepOK_trans {src : List Char} {a b c : LexSt}
    (h1 : stepOK src a b) (h2 : stepOK src b c) : stepOK src a c :=
  ⟨Nat.le_trans h1.1 h2.1, fun h => h2.2.1 (h1.2.1 h), posLe_trans h1.2.2 h2.2.2⟩

theorem atEof_false {src : List Char} {st : LexSt} (h : st.index < src.length) :
    atEof src st = false := by
  simp [atEof]; omega

theorem currentChar_ne_lt {src : List Char} {st : LexSt}
    (h : currentChar src st ≠ nul) : st.index < src.length := by
  by_contra hge
  exact h (by simp [currentChar, atEof]; omega)

theorem advance_index_eq {src : List Char} {st : LexSt} (h : st.index < src.length) :
    (advance src st).index = st.index + 1 := by
  simp only [advance, atEof_false h, Bool.false_eq_true, if_false]
  split <;> rfl

theorem stepOK_advance (src : List Char) (st : LexSt) : stepOK src st (advance src st) := by
  unfold advance
  split
  · exact stepOK_refl src st
  · split
    · exact ⟨Nat.le_succ _, fun h => by simp [atEof] at *; omega, Or.inl (Nat.lt_succ_self _)⟩
    · exact ⟨Nat.le_succ _, fun h => by simp [atEof] at *; omega, Or.inr ⟨rfl, Nat.le_succ _⟩⟩

theorem skipWsF_spec (src : List Char) :
    ∀ fuel st, src.length - st.index < fuel →
      ∃ st', skipWsF src fuel st = .ok st' ∧ stepOK src st st' := by
  intro fuel
  induction fuel with
  | zero => intro st h; omega
  | succ fuel ih =>
    intro st h
    by_cases hc : cIsSpace (currentChar src st) = true
    · have hnn : currentChar src st ≠ nul := by
        intro hn; rw [hn] at hc; exact absurd hc (by decide)
      have hlt : st.index < src.length := currentChar_ne_lt hnn
      obtain ⟨st', h1, h2⟩ := ih (advance src st) (by rw [advance_index_eq hlt]; omega)
      exact ⟨st', by simp [skipWsF, hc, h1], stepOK_trans (stepOK_advance src st) h2⟩
    · exact ⟨st, by simp [skipWsF, hc], stepOK_refl src st⟩

theorem walkF_spec (src : List Char) (p : Char → Bool) (hp : p nul = false) :
    ∀ fuel st, src.length - st.index < fuel →
      ∃ cs st', walkF src p fuel st = .ok (cs, st') ∧ stepOK src st st' ∧
        (p (currentChar src st) = true → st.index < st'.index) := by
  intro fuel
  induction fuel with
  | zero => intro st h; omega
  | succ fuel ih =>
    intro st h
    by_cases hc : p (currentChar src st) = true
    · have hnn : currentChar src st ≠ nul := by
        intro hn; rw [hn] at hc; rw [hc] at hp; cases hp
      have hlt : st.index < src.length := currentChar_ne_lt hnn
      obtain ⟨cs, st', h1, h2, _⟩ := ih (advance src st) (by rw [advance_index_eq hlt]; omega)
      refine ⟨currentChar src st :: cs, st', by simp [walkF, hc, h1],
        stepOK_trans (stepOK_advance src st) h2, fun _ => ?_⟩
      calc st.index < (advance src st).index := by rw [advance_index_eq hlt]; omega
        _ ≤ st'.index := h2.1
    · exact ⟨[], st, by simp [walkF, hc], stepOK_refl src st, fun hcc => absurd hcc hc⟩

theorem parseStringBodyF_spec (src : List Char) :
    ∀ fuel st acc, src.length - st.index < fuel →
      (parseStringBodyF src fuel st acc ≠ .spin) ∧
      (∀ cs st', parseStringBodyF src fuel st acc = .ok (cs, st') → stepOK src st st') ∧
      (∀ e, parseStringBodyF src fuel st acc = .err e →
        st.index ≤ src.length → e.index ≤ src.length) := by
  intro fuel
  induction fuel with
  | zero => intro st acc h; omega
  | succ fuel ih =>
    intro st acc h
    refine ⟨?_, ?_, ?_⟩
    · simp only [parseStringBodyF]
      split
      next hcond =>
        have hlt : st.index < src.length := by
          simp [Bool.and_eq_true, atEof] at hcond
          omega
        have h1 := advance_index_eq hlt
        split
        next hesc =>
          have hst2 := (stepOK_advance src (advance src st)).1
          split <;> first
            | exact (ih _ _ (by omega)).1
            | simp
        next hesc =>
          exact (ih _ _ (by omega)).1
      next hcond => simp
    · intro cs st' hEq
      simp only [parseStringBodyF] at hEq
      split at hEq
      next hcond =>
        have hlt : st.index < src.length := by
          simp [Bool.and_eq_true, atEof] at hcond
          omega
        have h1 := advance_index_eq hlt
        split at hEq
        next hesc =>
          have hst2 := (stepOK_advance src (advance src st)).1
          have hstep2 : stepOK src st (advance src (advance src st)) :=
            stepOK_trans (stepOK_advance src st) (stepOK_advance src (advance src st))
          split at hEq <;> first
            | exact stepOK_trans hstep2 ((ih _ _ (by omega)).2.1 _ _ hEq)
            | cases hEq
        next hesc =>
          exact stepOK_trans (stepOK_advance src st) ((ih _ _ (by omega)).2.1 _ _ hEq)
      next hcond =>
        cases hEq
        exact stepOK_refl src st
    · intro e hEq hle
      simp only [parseStringBodyF] at hEq
      split at hEq
      next hcond =>
        have hlt : st.index < src.length := by
          simp [Bool.and_eq_true, atEof] at hcond
          omega
        have h1 := advance_index_eq hlt
        split at hEq
        next hesc =>
          have hst2 := (stepOK_advance src (advance src st)).1
          have hstep2 : stepOK src st (advance src (advance src st)) :=
            stepOK_trans (stepOK_advance src st) (stepOK_advance src (advance src st))
          split at hEq <;> first
            | exact (ih _ _ (by omega)).2.2 _ hEq (hstep2.2.1 hle)
            | (cases hEq; exact hstep2.2.1 hle)
        next hesc =>
          exact (ih _ _ (by omega)).2.2 _ hEq ((stepOK_advance src st).2.1 hle)
      next hcond => cases hEq

theorem parseNumberTok_spec (src : List Char) (st : LexSt)
    (hd : (currentChar src st).isDigit = true) : tokOK src st (parseNumberTok src st) := by
  obtain ⟨cs, st1, hw, hstep, hstrict⟩ :=
    walkF_spec src Char.isDigit (by decide) (src.length + 1) st (by omega)
  refine ⟨?_, ?_, ?_⟩
  · simp only [parseNumberTok, hw]
    split
    next hdot =>
      have hlt1 : st1.index < src.length := by
        refine currentChar_ne_lt (fun hn => ?_)
        rw [hn] at hdot
        simp at hdot
        exact absurd hdot.1 (by decide)
      obtain ⟨cs2, st3, hw2, hstep2, _⟩ :=
        walkF_spec src Char.isDigit (by decide) (src.length + 1) (advance src st1) (by omega)
      simp [hw2]
    next hdot => simp
  · intro tok st' hEq
    simp only [parseNumberTok, hw] at hEq
    split at hEq
    next hdot =>
      have hlt1 : st1.index < src.length := by
        refine currentChar_ne_lt (fun hn => ?_)
        rw [hn] at hdot
        simp at hdot
        exact absurd hdot.1 (by decide)
      obtain ⟨cs2, st3, hw2, hstep2, _⟩ :=
        walkF_spec src Char.isDigit (by decide) (src.length + 1) (advance src st1) (by omega)
      rw [hw2] at hEq
      cases hEq
      refine ⟨stepOK_trans hstep (stepOK_trans (stepOK_advance src st1) hstep2), rfl, rfl, ?_⟩
      have := hstrict hd
      have := (stepOK_advance src st1).1
      have := hstep2.1
      omega
    next hdot =>
      cases hEq
      exact ⟨hstep, rfl, rfl, hstrict hd⟩
  · intro e hEq hle
    simp only [parseNumberTok, hw] at hEq
    split at hEq
    next hdot =>
      have hlt1 : st1.index < src.length := by
        refine currentChar_ne_lt (fun hn => ?_)
        rw [hn] at hdot
        simp at hdot
        exact absurd hdot.1 (by decide)
      obtain ⟨cs2, st3, hw2, _, _⟩ :=
        walkF_spec src Char.isDigit (by decide) (src.length + 1) (advance src st1) (by omega)
      rw [hw2] at hEq
      cases hEq
    next hdot => cases hEq

theorem parseIdentifierTok_spec (src : List Char) (st : LexSt)
    (ha : ((currentChar src st).isAlpha || currentChar src st == '_') = true) :
    tokOK src st (parseIdentifierTok src st) := by
  obtain ⟨cs, st1, hw, hstep, hstrict⟩ :=
    walkF_spec src (fun c => c.isAlphanum || c == '_') (by decide) (src.length + 1) st (by omega)
  have hp : ((currentChar src st).isAlphanum || currentChar src st == '_') = true := by
    rcases Bool.or_eq_true_iff.mp ha with h | h
    · simp [Char.isAlphanum, h]
    · simp [h]
  refine ⟨?_, ?_, ?_⟩
  · simp only [parseIdentifierTok, hw]
    split <;> simp
  · intro tok st' hEq
    simp only [parseIdentifierTok, hw] at hEq
    split at hEq <;>
      (cases hEq; exact ⟨hstep, rfl, rfl, hstrict hp⟩)
  · intro e hEq hle
    simp only [parseIdentifierTok, hw] at hEq
    split at hEq <;> cases hEq

theorem parseStringTok_spec (src : List Char) (st : LexSt)
    (hq : currentChar src st = '"') : tokOK src st (parseStringTok src st) := by
  have hlt : st.index < src.length := currentChar_ne_lt (by rw [hq]; decide)
  have h1 := advance_index_eq hlt
  have hB := parseStringBodyF_spec src (src.length + 1) (advance src st) [] (by omega)
  refine ⟨?_, ?_, ?_⟩
  · simp only [parseStringTok]
    split
    next cs st1 heq =>
      split <;> simp
    next e heq => simp
    next heq => exact absurd heq hB.1
  · intro tok st' hEq
    simp only [parseStringTok] at hEq
    split at hEq
    next cs st1 heq =>
      split at hEq
      next hAte => cases hEq
      next hAte =>
        cases hEq
        have hstepB : stepOK src st st1 :=
          stepOK_trans (stepOK_advance src st) (hB.2.1 _ _ heq)
        refine ⟨stepOK_trans hstepB (stepOK_advance src st1), rfl, rfl, ?_⟩
        have := hstepB.1
        have hlt1 : st1.index < src.length := by
          simp [atEof] at hAte
          omega
        have := advance_index_eq hlt1
        omega
    next e heq => cases hEq
    next heq => exact absurd heq hB.1
  · intro e hEq hle
    simp only [parseStringTok] at hEq
    split at hEq
    next cs st1 heq =>
      split at hEq
      next hAte =>
        cases hEq
        exact (stepOK_trans (stepOK_advance src st) (hB.2.1 _ _ heq)).2.1 hle
      next hAte => cases hEq
    next e2 heq =>
      cases hEq
      exact hB.2.2 _ heq ((stepOK_advance src st).2.1 hle)
    next heq => exact absurd heq hB.1

theorem parseSymbolTok_spec (src : List Char) (st : LexSt)
    (hnn : currentChar src st ≠ nul) : tokOK src st (parseSymbolTok src st) := by
  have hlt : st.index < src.length := currentChar_ne_lt hnn
  have h1 := advance_index_eq hlt
  refine ⟨?_, ?_, ?_⟩
  · simp only [parseSymbolTok]
    split <;> split <;> simp
  · intro tok st' hEq
    simp only [parseSymbolTok] at hEq
    split at hEq <;> split at hEq <;>
      (cases hEq;
       refine ⟨?_, rfl, rfl, ?_⟩) <;>
      first
        | exact stepOK_trans (stepOK_advance src st) (stepOK_advance src (advance src st))
        | exact stepOK_advance src st
        | (have h := (stepOK_advance src (advance src st)).1; omega)
  · intro e hEq hle
    simp only [parseSymbolTok] at hEq
    split at hEq <;> split at hEq <;> cases hEq

theorem nextTokenF_spec (src : List Char) (st : LexSt) (hle : st.index ≤ src.length) :
    (nextTokenF src st ≠ .spin) ∧
    (∀ tok st', nextTokenF src st = .ok (tok, st') →
      stepOK src st st' ∧ tok.line = st'.line ∧ tok.col = st'.column ∧
      st'.index ≤ src.length ∧ (tok.type ≠ .EOS → st.index < st'.index)) ∧
    (∀ e, nextTokenF src st = .err e → e.index ≤ src.length) := by
  obtain ⟨st0, hws, hstep0⟩ := skipWsF_spec src (src.length + 1) st (by omega)
  have hle0 : st0.index ≤ src.length := hstep0.2.1 hle
  have lift : ∀ r, tokOK src st0 r →
      (r ≠ .spin) ∧
      (∀ tok st', r = .ok (tok, st') →
        stepOK src st st' ∧ tok.line = st'.line ∧ tok.col = st'.column ∧
        st'.index ≤ src.length ∧ (tok.type ≠ .EOS → st.index < st'.index)) ∧
      (∀ e, r = .err e → e.index ≤ src.length) := by
    intro r hr
    refine ⟨hr.1, ?_, fun e he => hr.2.2 e he hle0⟩
    intro tok st' hEq
    obtain ⟨hs, hl, hc, hstrict⟩ := hr.2.1 tok st' hEq
    refine ⟨stepOK_trans hstep0 hs, hl, hc, hs.2.1 hle0, fun _ => ?_⟩
    have := hstep0.1
    omega
  refine ⟨?_, ?_, ?_⟩
  · simp only [nextTokenF, hws]
    split
    next hnul => simp
    next hnul =>
      split
      next hd => exact (lift _ (parseNumberTok_spec src st0 hd)).1
      next hd =>
        split
        next hal => exact (lift _ (parseIdentifierTok_spec src st0 hal)).1
        next hal =>
          split
          next hq => exact (lift _ (parseStringTok_spec src st0 hq)).1
          next hq => exact (lift _ (parseSymbolTok_spec src st0 hnul)).1
  · intro tok st' hEq
    simp only [nextTokenF, hws] at hEq
    split at hEq
    next hnul =>
      cases hEq
      exact ⟨hstep0, rfl, rfl, hle0, fun hne => absurd rfl hne⟩
    next hnul =>
      split at hEq
      next hd => exact (lift _ (parseNumberTok_spec src st0 hd)).2.1 _ _ hEq
      next hd =>
        split at hEq
        next hal => exact (lift _ (parseIdentifierTok_spec src st0 hal)).2.1 _ _ hEq
        next hal =>
          split at hEq
          next hq => exact (lift _ (parseStringTok_spec src st0 hq)).2.1 _ _ hEq
          next hq => exact (lift _ (parseSymbolTok_spec src st0 hnul)).2.1 _ _ hEq
  · intro e hEq
    simp only [nextTokenF, hws] at hEq
    split at hEq
    next hnul => cases hEq
    next hnul =>
      split at hEq
      next hd => exact (lift _ (parseNumberTok_spec src st0 hd)).2.2 _ hEq
      next hd =>
        split at hEq
        next hal => exact (lift _ (parseIdentifierTok_spec src st0 hal)).2.2 _ hEq
        next hal =>
          split at hEq
          next hq => exact (lift _ (parseStringTok_spec src st0 hq)).2.2 _ hEq
          next hq => exact (lift _ (parseSymbolTok_spec src st0 hnul)).2.2 _ hEq

theorem allTokensAuxF_spec (src : List Char) :
    ∀ fuel st, src.length - st.index < fuel → st.index ≤ src.length →
      (allTokensAuxF src fuel st ≠ .spin) ∧
      (∀ l, allTokensAuxF src fuel st = .ok l →
        ∃ last, l.getLast? = some last ∧ last.type = .EOS ∧
          (∀ t ∈ l, posLe t.pos last.pos) ∧ posLe (st.line, st.column) last.pos) ∧
      (∀ e, allTokensAuxF src fuel st = .err e → e.index ≤ src.length) := by
  intro fuel
  induction fuel with
  | zero => intro st h hle; omega
  | succ fuel ih =>
    intro st h hle
    obtain ⟨hns, hok, herr⟩ := nextTokenF_spec src st hle
    refine ⟨?_, ?_, ?_⟩
    · simp only [allTokensAuxF]
      split
      next tok st' hEq =>
        obtain ⟨hs, hl, hc, hle2, hstrict⟩ := hok _ _ hEq
        split
        next hEOS => simp
        next hEOS =>
          have hlt := hstrict hEOS
          split
          next l hrec => simp
          next e hrec => simp
          next hrec => exact absurd hrec (ih st' (by omega) hle2).1
      next e hEq => simp
      next hEq => exact absurd hEq hns
    · intro l hL
      simp only [allTokensAuxF] at hL
      split at hL
      next tok st' hEq =>
        obtain ⟨hs, hl, hc, hle2, hstrict⟩ := hok _ _ hEq
        split at hL
        next hEOS =>
          cases hL
          refine ⟨⟨"END", .EOS, st'.line, st'.column⟩, rfl, rfl, ?_, hs.2.2⟩
          intro t ht
          have : t = (⟨"END", .EOS, st'.line, st'.column⟩ : Tok) := by simpa using ht
          rw [this]
          exact posLe_refl _
        next hEOS =>
          have hlt := hstrict hEOS
          split at hL
          next l2 hrec =>
            cases hL
            obtain ⟨last, hglast, hlEOS, hall, hglue⟩ := (ih st' (by omega) hle2).2.1 _ hrec
            refine ⟨last, ?_, hlEOS, ?_, posLe_trans hs.2.2 hglue⟩
            · cases l2 with
              | nil => simp at hglast
              | cons b bs => rw [List.getLast?_cons_cons]; exact hglast
            · intro t ht
              rcases List.mem_cons.mp ht with rfl | hmem
              · have hp : t.pos = (st'.line, st'.column) := by simp [Tok.pos, hl, hc]
                rw [hp]
                exact hglue
              · exact hall t hmem
          next e hrec => cases hL
          next hrec => exact absurd hrec (ih st' (by omega) hle2).1
      next e hEq => cases hL
      next hEq => exact absurd hEq hns
    · intro e hL
      simp only [allTokensAuxF] at hL
      split at hL
      next tok st' hEq =>
        obtain ⟨hs, hl, hc, hle2, hstrict⟩ := hok _ _ hEq
        split at hL
        next hEOS => cases hL
        next hEOS =>
          have hlt := hstrict hEOS
          split at hL
          next l2 hrec => cases hL
          next e2 hrec =>
            cases hL
            exact (ih st' (by omega) hle2).2.2 _ hrec
          next hrec => exact absurd hrec (ih st' (by omega) hle2).1
      next e2 hEq =>
        cases hL
        exact herr _ hEq
      next hEq => exact absurd hEq hns

/-- C6.  For every source, Lexer::allTokens terminates (no fuel level is
ever exhausted) and either returns a token list whose last element is
END_OF_STREAM and whose (line, column) position is lexicographically at
least every prior token's position, or raises LexicalError with the cursor
not past the end of the source. -/
theorem lexer_totality : ∀ src : List Char,
    allTokens src ≠ .spin ∧
    (∀ l, allTokens src = .ok l →
      ∃ last, l.getLast? = some last ∧ last.type = .EOS ∧ ∀ t ∈ l, posLe t.pos last.pos) ∧
    (∀ e, allTokens src = .err e → e.index ≤ src.length) := by
  intro src
  obtain ⟨h1, h2, h3⟩ := allTokensAuxF_spec src (src.length + 1) ⟨0, 1, 1⟩
    (by show src.length - 0 < src.length + 1; omega) (Nat.zero_le _)
  exact ⟨h1, fun l hl =>
    (h2 l hl).imp fun last ⟨a, b, c, _⟩ => ⟨a, b, c⟩, h3⟩


/-- Witness for C6 on the one-character source "1". -/
theorem lexer_totality_witness :
    allTokens "1".toList ≠ .spin ∧
    ∃ last, ([⟨"1", .NUMBER, 1, 2⟩, ⟨"END", .EOS, 1, 2⟩] : List Tok).getLast? = some last ∧
      last.type = .EOS ∧
      ∀ t ∈ [(⟨"1", .NUMBER, 1, 2⟩ : Tok), ⟨"END", .EOS, 1, 2⟩], posLe t.pos last.pos :=
  ⟨(lexer_totality "1".toList).1,
   (lexer_totality "1".toList).2.1 [⟨"1", .NUMBER, 1, 2⟩, ⟨"END", .EOS, 1, 2⟩] rfl⟩

end Verte
